import Mathlib

/-!
Shallow embedding of the locator validation and ticket-consumption engine of
the `validador` repository (`src/api/src/validations/validations.service.ts`,
with the database schema and transaction runner from the DbService file).

Modelling conventions:
* Machine integers and JS numbers are modelled as `Nat`/`Int`; the JS constant
  `Number.MAX_SAFE_INTEGER` appears explicitly where the code uses it.
* Database rows are records in lists; `INSERT ... ON CONFLICT DO NOTHING`
  becomes an explicit membership test followed by an append, which is the
  serialized semantics of the atomic insert.
* Timestamps (`NOW()`) are drawn from a logical clock in the engine state.
* `SHA-256` is modelled as an arbitrary function parameter `hashFn` applied to
  the canonical JSON payload the code hashes; every theorem therefore holds for
  the real hash as a special case.
* Concurrency is modelled as arbitrary serialized interleavings of whole
  transactions, which is what the database's atomicity guarantees reduce it to.
* The engine state carries two instrumentation counters (`sourceCalls`,
  `localLookups`) counting adapter candidate lookups and `locator_tickets`
  queries; they only record that a query happened and never influence results.
-/

namespace Validador

/-! ## Spanish DNI / NIE validation (`isValidSpanishDniNie`) -/

/-- The fixed 23-character check-letter sequence from the source. -/
def dniLetters : List Char :=
  ['T','R','W','A','G','M','Y','F','P','D','X','B','N','J','Z','S','Q','V','H','L','C','K','E']

/-- Decimal value of a digit character. -/
def digitVal (c : Char) : Nat := c.toNat - '0'.toNat

/-- `Number(...)` on a string of decimal digits. -/
def digitsToNat (cs : List Char) : Nat := cs.foldl (fun a c => 10 * a + digitVal c) 0

/-- NIE prefix digit: `X→'0'`, `Y→'1'`, `Z→'2'` (as in the source's ternary). -/
def nieDigit (c : Char) : Char := if c = 'X' then '0' else if c = 'Y' then '1' else '2'

/-- Check letter selected by the source: `letters[number % 23]`. -/
def checkLetter (n : Nat) : Char := dniLetters.getD (n % 23) ' '

/-- `isValidSpanishDniNie` from the source: DNI regex `^\d{8}[A-Z]$` or NIE
regex `^[XYZ]\d{7}[A-Z]$`, then compare the ninth character with
`letters[number % 23]`. -/
def isValidSpanishDniNie (s : String) : Bool :=
  match s.data with
  | [c1,c2,c3,c4,c5,c6,c7,c8,c9] =>
    if ([c1,c2,c3,c4,c5,c6,c7,c8].all Char.isDigit) && c9.isUpper then
      checkLetter (digitsToNat [c1,c2,c3,c4,c5,c6,c7,c8]) == c9
    else if (c1 == 'X' || c1 == 'Y' || c1 == 'Z')
        && ([c2,c3,c4,c5,c6,c7,c8].all Char.isDigit) && c9.isUpper then
      checkLetter (digitsToNat [nieDigit c1,c2,c3,c4,c5,c6,c7,c8]) == c9
    else false
  | _ => false

/-! ## Input normalization (`normalizeValidateLocatorInput`, `trySplitLocatorDni`) -/

/-- JS `String.prototype.trim`: strip leading and trailing whitespace.
Defined over the character list so that it evaluates by reduction. -/
def jsTrim (s : String) : String :=
  ⟨((s.data.dropWhile Char.isWhitespace).reverse.dropWhile Char.isWhitespace).reverse⟩

/-- Code-point lexicographic order on character lists (the model of the
`localeCompare` tiebreak on ASCII ticket keys). -/
def listLexLE : List Char → List Char → Bool
  | [], _ => true
  | _ :: _, [] => false
  | a :: as, b :: bs =>
    if a.val < b.val then true
    else if b.val < a.val then false
    else listLexLE as bs

/-- Lexicographic string comparison. -/
def strLE (a b : String) : Bool := listLexLE a.data b.data

/-- Separator class of the split regex `[|\-\s]`. -/
def isSepChar (c : Char) : Bool := c == '|' || c == '-' || c.isWhitespace

/-- Result of a successful combined-token split. -/
structure SplitParts where
  locator : String
  dni : String
deriving DecidableEq, Repr

/-- `trySplitLocatorDni` from the source: trim, then match the anchored regex
`^([^|\-\s]+)[|\-\s]+([^|\-\s]+)$`.  The greedy decomposition below (maximal
separator-free prefix, maximal separator run, separator-free remainder) is
exactly the set of strings that regex accepts. -/
def trySplitLocatorDni (raw : String) : Option SplitParts :=
  let text := jsTrim raw
  if text.isEmpty then none
  else
    let cs := text.data
    let t1 := cs.takeWhile (fun c => !isSepChar c)
    let rest1 := cs.dropWhile (fun c => !isSepChar c)
    let seps := rest1.takeWhile isSepChar
    let t2 := rest1.dropWhile isSepChar
    if t1.isEmpty || seps.isEmpty || t2.isEmpty || !(t2.all (fun c => !isSepChar c)) then
      none
    else
      some ⟨⟨t1⟩, ⟨t2⟩⟩

/-- Uppercase a string character-wise (JS `toUpperCase` on the ASCII alphabet). -/
def toUpperStr (s : String) : String := ⟨s.data.map Char.toUpper⟩

/-- `normalizeDni`: `value.replace(/\s+/g, '').toUpperCase()`. -/
def normalizeDni (v : String) : String :=
  ⟨(v.data.filter (fun c => !c.isWhitespace)).map Char.toUpper⟩

/-- Raw request body of `validateLocator`; `none` models a missing field. -/
structure RawInput where
  locator : Option String := none
  dni : Option String := none
  serviceId : Option String := none

/-- Normalized input triple. -/
structure NormInput where
  locator : String
  dni : String
  serviceId : Option String
deriving DecidableEq, Repr

/-- Error taxonomy of the engine.  `badRequest` and `internalServer` are the
`HttpException`s the source throws; `adapterFailure` stands for any foreign
error escaping the candidate source or storage layer. -/
inductive VError
  | badRequest (msg : String)
  | internalServer (msg : String)
  | adapterFailure (msg : String)
deriving DecidableEq, Repr

/-- `error instanceof HttpException` in the outer catch of `validateLocator`. -/
def VError.isHttpException : VError → Bool
  | .badRequest _ => true
  | .internalServer _ => true
  | .adapterFailure _ => false

/-- Service-id normalization: trimmed when non-blank, otherwise "any service". -/
def normalizeServiceId (sid : Option String) : Option String :=
  match sid with
  | some s => if 0 < (jsTrim s).length then some (jsTrim s) else none
  | none => none

/-- `fallbackParts`: the combined-token split, computed from the `locator`
field only. -/
def fallbackPartsOf (input : RawInput) : Option SplitParts :=
  match input.locator with
  | some s => trySplitLocatorDni s
  | none => none

/-- `rawLocator`: a non-blank `locator` field is kept whole (even when it
contains a separable combined token); otherwise the split's first token. -/
def rawLocatorOf (input : RawInput) : String :=
  match input.locator with
  | some s =>
    if 0 < (jsTrim s).length then s
    else (((fallbackPartsOf input).map SplitParts.locator).getD "")
  | none => ((fallbackPartsOf input).map SplitParts.locator).getD ""

/-- `rawDni`: a non-blank `dni` field, otherwise the split's second token. -/
def rawDniOf (input : RawInput) : String :=
  match input.dni with
  | some s =>
    if 0 < (jsTrim s).length then s
    else (((fallbackPartsOf input).map SplitParts.dni).getD "")
  | none => ((fallbackPartsOf input).map SplitParts.dni).getD ""

/-- `normalizeValidateLocatorInput` from the source. -/
def normalizeValidateLocatorInput (input : RawInput) : Except VError NormInput :=
  if (toUpperStr (jsTrim (rawLocatorOf input))).length = 0
      || (normalizeDni (rawDniOf input)).length = 0 then
    .error (.badRequest "locator and dni cannot be empty")
  else
    .ok ⟨toUpperStr (jsTrim (rawLocatorOf input)), normalizeDni (rawDniOf input),
      normalizeServiceId input.serviceId⟩

/-! ## Response and database row shapes -/

inductive VResult
  | ERROR | INVALID | VALID | DUPLICATE
deriving DecidableEq, Repr

inductive VReason
  | NO_REMAINING | NOT_FOUND | DNI_MISMATCH
deriving DecidableEq, Repr

def VReason.asString : VReason → String
  | .NO_REMAINING => "NO_REMAINING"
  | .NOT_FOUND => "NOT_FOUND"
  | .DNI_MISMATCH => "DNI_MISMATCH"

structure TicketInfo where
  ticketId : String
  ref : Option String := none
  sequence : Option Int := none
  remainingAfter : Option Nat := none
deriving DecidableEq, Repr

structure Timestamps where
  createdAt : Nat
  updatedAt : Nat
deriving DecidableEq, Repr

structure ValidateLocatorResponse where
  result : VResult
  reason : Option VReason := none
  duplicateRecordedAt : Option Nat := none
  ticket : Option TicketInfo := none
  remainingAfter : Option Nat := none
  timestamps : Timestamps
deriving DecidableEq, Repr

/-- Row of the append-only `validations` audit table. -/
structure ValidationAuditRow where
  locator : String
  service_id : String
  result : VResult
  reason : Option String
  ref : Option String
  created_at : Nat
  updated_at : Nat
deriving DecidableEq, Repr

/-- Row of `validated_ticket_consumptions` (`ticket_key` UNIQUE). -/
structure ConsumptionRow where
  ticket_key : String
  locator : String
  service_id : Option String
  validated_by : Option String
  validated_username : Option String
  validated_roles : Option String
  validated_dni : Option String
  created_at : Nat
deriving DecidableEq, Repr

/-- Row of `validation_idempotency` (`(idempotency_key, endpoint)` UNIQUE). -/
structure IdempotencyRow where
  idempotency_key : String
  endpoint : String
  request_hash : String
  response_json : ValidateLocatorResponse
  created_at : Nat
deriving DecidableEq, Repr

/-- Row of the local `locator_tickets` table. -/
structure LocatorTicketRow where
  id : Nat
  locator : String
  dni : Option String
  service_id : Option String
  sequence : Option Int
  validated_at : Option Nat
  validated_by : Option String
  validated_dni : Option String
  created_at : Nat
  updated_at : Nat
deriving DecidableEq, Repr

/-- Durable state: the four tables of the validation schema. -/
structure DbState where
  validations : List ValidationAuditRow := []
  consumptions : List ConsumptionRow := []
  idempotency : List IdempotencyRow := []
  locatorTickets : List LocatorTicketRow := []
deriving DecidableEq, Repr

/-- Whole engine state: tables, logical clock, and the two query counters. -/
structure EngineState where
  db : DbState := {}
  clock : Nat := 0
  sourceCalls : Nat := 0
  localLookups : Nat := 0
deriving DecidableEq, Repr

/-- Ticket keys currently present in the consumption ledger. -/
def consumptionKeys (s : EngineState) : List String :=
  s.db.consumptions.map ConsumptionRow.ticket_key

/-- Idempotency keys currently present for the `validate-locator` endpoint. -/
def idempotencyKeys (s : EngineState) : List String :=
  (s.db.idempotency.filter (fun r => r.endpoint == "validate-locator")).map
    IdempotencyRow.idempotency_key

/-! ## Candidate source (ticketing adapter) and engine environment -/

/-- `TicketingLocatorCandidate` from the adapter contract. -/
structure TicketingLocatorCandidate where
  ticketKey : String
  sequence : Option Int := none
  dni : Option String := none
  ref : Option String := none
deriving DecidableEq, Repr

structure CandidateQuery where
  locator : String
  dni : String
  serviceId : Option String
deriving DecidableEq, Repr

inductive Mode
  | local | ticketing
deriving DecidableEq, Repr

/-- Engine environment: the configured source mode, the (optional) adapter
candidate listing, and the request hash function (SHA-256 in the source,
modelled as a parameter applied to the canonical payload). -/
structure Env where
  mode : Mode
  hasListLocatorCandidates : Bool := true
  listLocatorCandidates : CandidateQuery → Except String (List TicketingLocatorCandidate)
  hashFn : String → String

/-- Canonical serialization hashed by `buildRequestHash`:
`JSON.stringify({ locator, dni, serviceId })` with the fields in source order. -/
def canonicalPayload (n : NormInput) : String :=
  "\x7b\"locator\":\"" ++ n.locator ++ "\",\"dni\":\"" ++ n.dni ++ "\",\"serviceId\":"
    ++ (match n.serviceId with
        | some s => "\"" ++ s ++ "\""
        | none => "null")
    ++ "\x7d"

/-- `buildRequestHash`: the hash of the canonical payload. -/
def buildRequestHash (env : Env) (n : NormInput) : String :=
  env.hashFn (canonicalPayload n)

/-! ## Primitive storage operations -/

/-- Draw a fresh `NOW()` timestamp from the logical clock. -/
def tick (s : EngineState) : Nat × EngineState :=
  (s.clock, { s with clock := s.clock + 1 })

/-- `INSERT INTO validations ... RETURNING result, created_at, updated_at`. -/
def insertValidation (s : EngineState) (locator service_id : String) (result : VResult)
    (reason : Option String) (ref : Option String) : ValidationAuditRow × EngineState :=
  let (t, s1) := tick s
  let row : ValidationAuditRow :=
    { locator := locator, service_id := service_id, result := result, reason := reason,
      ref := ref, created_at := t, updated_at := t }
  (row, { s1 with db := { s1.db with validations := s1.db.validations ++ [row] } })

/-- Metadata recorded by a consumption claim. -/
structure ConsumeInput where
  ticketKey : String
  locator : String
  serviceId : Option String
  userId : Option String := none
  username : Option String := none
  roles : Option (List String) := none
  validatedDni : String
deriving Repr

/-- `rolesText` as computed by `tryConsumeTicketingCandidate`. -/
def rolesText (roles : Option (List String)) : Option String :=
  match roles with
  | some rs => if 0 < rs.length then some (String.intercalate "," rs) else none
  | none => none

/-- The row a successful claim inserts. -/
def consumptionRowOf (i : ConsumeInput) (t : Nat) : ConsumptionRow :=
  { ticket_key := i.ticketKey, locator := i.locator, service_id := i.serviceId,
    validated_by := i.userId, validated_username := i.username,
    validated_roles := rolesText i.roles, validated_dni := some i.validatedDni,
    created_at := t }

/-- `tryConsumeTicketingCandidate`: atomic
`INSERT INTO validated_ticket_consumptions ... ON CONFLICT (ticket_key) DO NOTHING`;
returns whether a row was inserted. -/
def tryConsumeTicketingCandidate (s : EngineState) (i : ConsumeInput) : Bool × EngineState :=
  if s.db.consumptions.any (fun r => r.ticket_key == i.ticketKey) then
    (false, s)
  else
    let (t, s1) := tick s
    (true, { s1 with db :=
      { s1.db with consumptions := s1.db.consumptions ++ [consumptionRowOf i t] } })

/-- `getConsumedTicketKeys`: membership pre-check against the ledger. -/
def getConsumedTicketKeys (s : EngineState) (ticketKeys : List String) : List String :=
  if ticketKeys.length = 0 then []
  else
    (s.db.consumptions.filter (fun r => ticketKeys.contains r.ticket_key)).map
      ConsumptionRow.ticket_key

/-- `getLatestTicketingConsumptionAt`: `MAX(created_at)` over the given keys. -/
def getLatestTicketingConsumptionAt (s : EngineState) (ticketKeys : List String) : Option Nat :=
  if ticketKeys.length = 0 then none
  else
    ((s.db.consumptions.filter (fun r => ticketKeys.contains r.ticket_key)).map
      ConsumptionRow.created_at).max?

/-- `findIdempotentResponse`: `SELECT ... WHERE idempotency_key = $1 AND
endpoint = 'validate-locator' FOR UPDATE` (the row lock is a no-op in the
serialized model). -/
def findIdempotentResponse (s : EngineState) (idempotencyKey : String) : Option IdempotencyRow :=
  s.db.idempotency.find? (fun r =>
    r.idempotency_key == idempotencyKey && r.endpoint == "validate-locator")

/-- `persistIdempotentResponse`: atomic insert of the `(key, endpoint)` row,
`ON CONFLICT DO NOTHING`; on conflict re-read and compare fingerprints. -/
def persistIdempotentResponse (s : EngineState) (idempotencyKey requestHash : String)
    (response : ValidateLocatorResponse) : Except VError Unit × EngineState :=
  if s.db.idempotency.any (fun r =>
      r.idempotency_key == idempotencyKey && r.endpoint == "validate-locator") then
    match findIdempotentResponse s idempotencyKey with
    | none => (.error (.internalServer "Failed to persist idempotency result"), s)
    | some existing =>
      if existing.request_hash ≠ requestHash then
        (.error (.badRequest "Idempotency-Key already used with different payload"), s)
      else
        (.ok (), s)
  else
    let (t, s1) := tick s
    let row : IdempotencyRow :=
      { idempotency_key := idempotencyKey, endpoint := "validate-locator",
        request_hash := requestHash, response_json := response, created_at := t }
    (.ok (), { s1 with db := { s1.db with idempotency := s1.db.idempotency ++ [row] } })

/-! ## Local (`locator_tickets`) mode -/

/-- `WHERE locator = $1 AND ($2::text IS NULL OR service_id = $2)`. -/
def ticketMatchesQuery (input : NormInput) (r : LocatorTicketRow) : Bool :=
  r.locator == input.locator &&
    (match input.serviceId with
     | none => true
     | some sid => r.service_id == some sid)

/-- `UPPER(REGEXP_REPLACE(COALESCE(dni, ''), '\s+', '', 'g')) = $dni`. -/
def ticketDniMatches (input : NormInput) (r : LocatorTicketRow) : Bool :=
  normalizeDni (r.dni.getD "") == input.dni

/-- The optional DNI filter `$3::boolean = false OR <dni match>`. -/
def ticketEligible (input : NormInput) (enforceDniMatch : Bool) (r : LocatorTicketRow) : Bool :=
  ticketMatchesQuery input r && (!enforceDniMatch || ticketDniMatches input r)

structure LocatorStatsRow where
  total_count : Nat
  dni_bound_count : Nat
  matching_dni_count : Nat
deriving DecidableEq, Repr

/-- `getLocatorStats`: the three counts over `locator_tickets`. -/
def getLocatorStats (s : EngineState) (input : NormInput) : LocatorStatsRow × EngineState :=
  let rows := s.db.locatorTickets.filter (ticketMatchesQuery input)
  let stats : LocatorStatsRow :=
    { total_count := rows.length,
      dni_bound_count :=
        (rows.filter (fun r => !((jsTrim (r.dni.getD "")).isEmpty) && r.dni.isSome)).length,
      matching_dni_count := (rows.filter (ticketDniMatches input)).length }
  (stats, { s with localLookups := s.localLookups + 1 })

structure NextTicketRow where
  id : Nat
  sequence : Option Int
deriving DecidableEq, Repr

/-- Boolean order of `ORDER BY sequence ASC NULLS LAST, created_at ASC, id ASC`. -/
def localTicketLE (a b : LocatorTicketRow) : Bool :=
  let aNull : Nat := if a.sequence.isSome then 0 else 1
  let bNull : Nat := if b.sequence.isSome then 0 else 1
  if aNull ≠ bNull then aNull ≤ bNull
  else if a.sequence.getD 0 ≠ b.sequence.getD 0 then a.sequence.getD 0 ≤ b.sequence.getD 0
  else if a.created_at ≠ b.created_at then a.created_at ≤ b.created_at
  else a.id ≤ b.id

/-- Rows a `getNextPendingTicket` query ranges over. -/
def pendingTickets (s : EngineState) (input : NormInput) (enforceDniMatch : Bool) :
    List LocatorTicketRow :=
  s.db.locatorTickets.filter (fun r =>
    ticketEligible input enforceDniMatch r && r.validated_at.isNone)

/-- The local order as a decidable relation, for the sort. -/
def localTicketLEP (a b : LocatorTicketRow) : Prop := localTicketLE a b = true

instance : DecidableRel localTicketLEP := fun a b => by
  unfold localTicketLEP
  infer_instance

/-- `getNextPendingTicket`: first row of the ordered pending set (`LIMIT 1`;
`FOR UPDATE SKIP LOCKED` is a no-op in the serialized model). -/
def getNextPendingTicket (s : EngineState) (input : NormInput) (enforceDniMatch : Bool) :
    Option NextTicketRow × EngineState :=
  let sorted := List.insertionSort localTicketLEP (pendingTickets s input enforceDniMatch)
  ((sorted.head?).map (fun r => { id := r.id, sequence := r.sequence }),
   { s with localLookups := s.localLookups + 1 })

/-- `markTicketAsValidated`: `UPDATE locator_tickets SET validated_at = NOW(),
updated_at = NOW(), validated_by = $2, validated_dni = $3 WHERE id = $1
RETURNING id, sequence`; throws if no row was updated. -/
def markTicketAsValidated (s : EngineState) (ticketId : Nat) (userId : Option String)
    (normalizedDni : String) : Except VError NextTicketRow × EngineState :=
  match s.db.locatorTickets.find? (fun r => r.id == ticketId) with
  | some r =>
    let (t, s1) := tick s
    let updated := s1.db.locatorTickets.map (fun row =>
      if row.id == ticketId then
        { row with validated_at := some t, updated_at := t,
                   validated_by := userId, validated_dni := some normalizedDni }
      else row)
    (.ok { id := r.id, sequence := r.sequence },
     { s1 with db := { s1.db with locatorTickets := updated } })
  | none => (.error (.internalServer "Failed to consume pending ticket"), s)

/-- `getRemainingPendingCount`. -/
def getRemainingPendingCount (s : EngineState) (input : NormInput) (enforceDniMatch : Bool) :
    Nat × EngineState :=
  ((pendingTickets s input enforceDniMatch).length,
   { s with localLookups := s.localLookups + 1 })

/-- `getLatestLocalValidatedAt`: `MAX(validated_at)` over validated rows. -/
def getLatestLocalValidatedAt (s : EngineState) (input : NormInput) (enforceDniMatch : Bool) :
    Option Nat × EngineState :=
  (((s.db.locatorTickets.filter (fun r =>
      ticketEligible input enforceDniMatch r && r.validated_at.isSome)).filterMap
        LocatorTicketRow.validated_at).max?,
   { s with localLookups := s.localLookups + 1 })

/-- `buildFunctionalResponse`: spread the body and attach the audit row's
timestamps (`{...body, timestamps: {...}}`). -/
def buildFunctionalResponse (row : ValidationAuditRow)
    (body : ValidateLocatorResponse) : ValidateLocatorResponse :=
  { body with timestamps := { createdAt := row.created_at, updatedAt := row.updated_at } }

/-- Placeholder timestamps for a body that `buildFunctionalResponse` is about
to overwrite. -/
def noTs : Timestamps := { createdAt := 0, updatedAt := 0 }

/-! ## Ticketing mode -/

/-- `Number.MAX_SAFE_INTEGER`, the stand-in the comparator uses for an absent
sequence. -/
def maxSafeInteger : Int := 9007199254740991

/-- The comparator of the `sort` call: sequence ascending with
`?? MAX_SAFE_INTEGER`, ties by `ticketKey` comparison. -/
def candLE (a b : TicketingLocatorCandidate) : Bool :=
  let aSeq := a.sequence.getD maxSafeInteger
  let bSeq := b.sequence.getD maxSafeInteger
  if aSeq ≠ bSeq then aSeq ≤ bSeq
  else strLE a.ticketKey b.ticketKey

/-- The comparator as a decidable relation, for the sort. -/
def candLEP (a b : TicketingLocatorCandidate) : Prop := candLE a b = true

instance : DecidableRel candLEP := fun a b => by
  unfold candLEP
  infer_instance

/-- `[...rawCandidates].sort(comparator)`.  JS `sort` is stable; a stable sort
of a total preorder is unique, so the stable `insertionSort` is an exact
model. -/
def sortCandidates (l : List TicketingLocatorCandidate) : List TicketingLocatorCandidate :=
  List.insertionSort candLEP l

/-- `candidate.dni?.trim()` truthiness: a non-empty bound identity. -/
def hasBoundDni (c : TicketingLocatorCandidate) : Bool :=
  match c.dni with
  | some d => !(jsTrim d).isEmpty
  | none => false

/-- Sorted + identity-filtered candidate list, exactly as computed inside
`validateLocatorAgainstTicketing`. -/
def eligibleCandidatesOf (rawCandidates : List TicketingLocatorCandidate) (dni : String) :
    List TicketingLocatorCandidate :=
  let sorted := sortCandidates rawCandidates
  if sorted.any hasBoundDni then
    sorted.filter (fun c => normalizeDni (c.dni.getD "") == dni)
  else
    sorted

/-- The claim loop of `validateLocatorAgainstTicketing`: walk the eligible
candidates, skip the ones in `consumedSet`, attempt the atomic claim otherwise,
stop at the first success.  Returns the selected candidate (if any), the final
`consumedSet`, and the state. -/
def walkClaim (s : EngineState) (consumedSet : List String)
    (cands : List TicketingLocatorCandidate) (input : NormInput)
    (actor : ConsumeInput → ConsumeInput) :
    Option TicketingLocatorCandidate × List String × EngineState :=
  match cands with
  | [] => (none, consumedSet, s)
  | c :: rest =>
    if consumedSet.contains c.ticketKey then
      walkClaim s consumedSet rest input actor
    else
      let (consumed, s1) := tryConsumeTicketingCandidate s
        (actor { ticketKey := c.ticketKey, locator := input.locator,
                 serviceId := input.serviceId, validatedDni := input.dni })
      if consumed then
        (some c, c.ticketKey :: consumedSet, s1)
      else
        walkClaim s1 (c.ticketKey :: consumedSet) rest input actor

/-- Actor metadata passed through to the consumption insert. -/
structure Actor where
  userId : Option String := none
  username : Option String := none
  roles : Option (List String) := none

def Actor.apply (a : Actor) (i : ConsumeInput) : ConsumeInput :=
  { i with userId := a.userId, username := a.username, roles := a.roles }

/-- `validateLocatorAgainstTicketing` from the source. -/
def validateLocatorAgainstTicketing (env : Env) (s : EngineState) (input : NormInput)
    (actor : Actor) : Except VError ValidateLocatorResponse × EngineState :=
  if !(isValidSpanishDniNie input.dni) then
    let (row, s1) := insertValidation s input.locator (input.serviceId.getD "")
      .INVALID (some "DNI_MISMATCH") none
    (.ok (buildFunctionalResponse row
      { result := .INVALID, reason := some .DNI_MISMATCH, timestamps := noTs }), s1)
  else if !env.hasListLocatorCandidates then
    (.error (.internalServer "Ticketing adapter does not implement listLocatorCandidates"), s)
  else
    let s0 := { s with sourceCalls := s.sourceCalls + 1 }
    match env.listLocatorCandidates
        { locator := input.locator, dni := input.dni, serviceId := input.serviceId } with
    | .error msg => (.error (.adapterFailure msg), s0)
    | .ok rawCandidates =>
      if rawCandidates.length = 0 then
        let (row, s1) := insertValidation s0 input.locator (input.serviceId.getD "")
          .INVALID (some "NOT_FOUND") none
        (.ok (buildFunctionalResponse row
          { result := .INVALID, reason := some .NOT_FOUND, timestamps := noTs }), s1)
      else
        let eligibleCandidates := eligibleCandidatesOf rawCandidates input.dni
        if eligibleCandidates.length = 0 then
          let (row, s1) := insertValidation s0 input.locator (input.serviceId.getD "")
            .INVALID (some "DNI_MISMATCH") none
          (.ok (buildFunctionalResponse row
            { result := .INVALID, reason := some .DNI_MISMATCH, timestamps := noTs }), s1)
        else
          let consumedSet := getConsumedTicketKeys s0
            (eligibleCandidates.map TicketingLocatorCandidate.ticketKey)
          match walkClaim s0 consumedSet eligibleCandidates input actor.apply with
          | (none, _, s1) =>
            let duplicateRecordedAt := getLatestTicketingConsumptionAt s1
              (eligibleCandidates.map TicketingLocatorCandidate.ticketKey)
            let (row, s2) := insertValidation s1 input.locator (input.serviceId.getD "")
              .DUPLICATE (some "NO_REMAINING") none
            (.ok (buildFunctionalResponse row
              { result := .DUPLICATE, reason := some .NO_REMAINING,
                remainingAfter := some 0,
                duplicateRecordedAt := duplicateRecordedAt, timestamps := noTs }), s2)
          | (some selected, consumedFinal, s1) =>
            let remainingAfter := (eligibleCandidates.filter
              (fun c => !(consumedFinal.contains c.ticketKey))).length
            let (row, s2) := insertValidation s1 input.locator (input.serviceId.getD "")
              .VALID none (some (selected.ref.getD selected.ticketKey))
            (.ok (buildFunctionalResponse row
              { result := .VALID, remainingAfter := some remainingAfter,
                ticket := some
                  { ticketId := selected.ticketKey, ref := selected.ref,
                    sequence := selected.sequence, remainingAfter := some remainingAfter },
                timestamps := noTs }), s2)

/-! ## Local mode (`consumeNextTicketByLocator`) -/

/-- `consumeNextTicketByLocator` from the source.  Note the stats query runs
before the DNI format check. -/
def consumeNextTicketByLocator (s : EngineState) (input : NormInput)
    (userId : Option String) : Except VError ValidateLocatorResponse × EngineState :=
  let stats := (getLocatorStats s input).1
  let s0 := (getLocatorStats s input).2
  if !(isValidSpanishDniNie input.dni) then
    let (row, s1) := insertValidation s0 input.locator (input.serviceId.getD "")
      .INVALID (some "DNI_MISMATCH") none
    (.ok (buildFunctionalResponse row
      { result := .INVALID, reason := some .DNI_MISMATCH, timestamps := noTs }), s1)
  else if stats.total_count = 0 then
    let (row, s1) := insertValidation s0 input.locator (input.serviceId.getD "")
      .INVALID (some "NOT_FOUND") none
    (.ok (buildFunctionalResponse row
      { result := .INVALID, reason := some .NOT_FOUND, timestamps := noTs }), s1)
  else
    let hasDniAssociation := 0 < stats.dni_bound_count
    if hasDniAssociation && stats.matching_dni_count = 0 then
      let (row, s1) := insertValidation s0 input.locator (input.serviceId.getD "")
        .INVALID (some "DNI_MISMATCH") none
      (.ok (buildFunctionalResponse row
        { result := .INVALID, reason := some .DNI_MISMATCH, timestamps := noTs }), s1)
    else
      match (getNextPendingTicket s0 input hasDniAssociation).1 with
      | none =>
        let s1 := (getNextPendingTicket s0 input hasDniAssociation).2
        let duplicateRecordedAt := (getLatestLocalValidatedAt s1 input hasDniAssociation).1
        let s2 := (getLatestLocalValidatedAt s1 input hasDniAssociation).2
        let (row, s3) := insertValidation s2 input.locator (input.serviceId.getD "")
          .DUPLICATE (some "NO_REMAINING") none
        (.ok (buildFunctionalResponse row
          { result := .DUPLICATE, reason := some .NO_REMAINING,
            remainingAfter := some 0,
            duplicateRecordedAt := duplicateRecordedAt, timestamps := noTs }), s3)
      | some nextTicket =>
        let s1 := (getNextPendingTicket s0 input hasDniAssociation).2
        match (markTicketAsValidated s1 nextTicket.id userId input.dni).1 with
        | .error e => (.error e, (markTicketAsValidated s1 nextTicket.id userId input.dni).2)
        | .ok consumedTicket =>
          let s2 := (markTicketAsValidated s1 nextTicket.id userId input.dni).2
          let remainingAfter := (getRemainingPendingCount s2 input hasDniAssociation).1
          let s3 := (getRemainingPendingCount s2 input hasDniAssociation).2
          let (row, s4) := insertValidation s3 input.locator (input.serviceId.getD "")
            .VALID none (some (toString consumedTicket.id))
          (.ok (buildFunctionalResponse row
            { result := .VALID, remainingAfter := some remainingAfter,
              ticket := some
                { ticketId := toString consumedTicket.id,
                  sequence := consumedTicket.sequence,
                  remainingAfter := some remainingAfter },
              timestamps := noTs }), s4)

/-! ## `validateLocator`: idempotency gate, transaction, outer error mapping -/

structure CallOptions where
  idempotencyKey : Option String := none
  userId : Option String := none
  username : Option String := none
  roles : Option (List String) := none

/-- `options.idempotencyKey?.trim() || undefined`. -/
def effectiveIdempotencyKey (options : CallOptions) : Option String :=
  match options.idempotencyKey with
  | some k => if (jsTrim k).isEmpty then none else some (jsTrim k)
  | none => none

/-- Source lines 469-477: persist the computed response under the idempotency
key, then return that same computed response. -/
def persistPhase (s : EngineState) (idempotencyKey requestHash : String)
    (response : ValidateLocatorResponse) :
    Except VError ValidateLocatorResponse × EngineState :=
  match persistIdempotentResponse s idempotencyKey requestHash response with
  | (.ok _, s1) => (.ok response, s1)
  | (.error e, s1) => (.error e, s1)

/-- The mode dispatch of the core algorithm (source lines 460-467). -/
def runCore (env : Env) (normalized : NormInput) (options : CallOptions)
    (s : EngineState) : Except VError ValidateLocatorResponse × EngineState :=
  match env.mode with
  | .local => consumeNextTicketByLocator s normalized options.userId
  | .ticketing => validateLocatorAgainstTicketing env s normalized
      { userId := options.userId, username := options.username, roles := options.roles }

/-- The callback passed to `withTransaction`: idempotency lookup, core
algorithm dispatch by mode, idempotency persist. -/
def validateLocatorTxnBody (env : Env) (normalized : NormInput)
    (idempotencyKey : Option String) (requestHash : String) (options : CallOptions)
    (s : EngineState) : Except VError ValidateLocatorResponse × EngineState :=
  let lookedUp : Option IdempotencyRow :=
    match idempotencyKey with
    | some key => findIdempotentResponse s key
    | none => none
  match lookedUp with
  | some existing =>
    if existing.request_hash ≠ requestHash then
      (.error (.badRequest "Idempotency-Key already used with different payload"), s)
    else
      (.ok existing.response_json, s)
  | none =>
    match runCore env normalized options s with
    | (.error e, s1) => (.error e, s1)
    | (.ok response, s1) =>
      match idempotencyKey with
      | some key => persistPhase s1 key requestHash response
      | none => (.ok response, s1)

/-- `DbService.withTransaction`: run the body; on error roll the database back
to the pre-transaction snapshot and rethrow.  The clock and the query counters
are not part of the database and survive the rollback. -/
def withTransaction (body : EngineState → Except VError α × EngineState)
    (s : EngineState) : Except VError α × EngineState :=
  match body s with
  | (.ok a, s1) => (.ok a, s1)
  | (.error e, s1) => (.error e, { s1 with db := s.db })

/-- `validateLocator` from the source: normalize, hash, run the transaction,
map non-`HttpException` errors to the generic server error. -/
def validateLocator (env : Env) (input : RawInput) (options : CallOptions)
    (s : EngineState) : Except VError ValidateLocatorResponse × EngineState :=
  match normalizeValidateLocatorInput input with
  | .error e => (.error e, s)
  | .ok normalized =>
    let idempotencyKey := effectiveIdempotencyKey options
    let requestHash := buildRequestHash env normalized
    match withTransaction
        (validateLocatorTxnBody env normalized idempotencyKey requestHash options) s with
    | (.ok r, s1) => (.ok r, s1)
    | (.error e, s1) =>
      if e.isHttpException then (.error e, s1)
      else (.error (.internalServer "ERROR"), s1)

/-- A whole call: environment, request body, request context. -/
structure Call where
  env : Env
  input : RawInput
  options : CallOptions

/-- Run a sequence of `validateLocator` calls one transaction after another
(the serialized interleaving the storage layer guarantees). -/
def runCalls (calls : List Call) (s : EngineState) :
    List (Except VError ValidateLocatorResponse) × EngineState :=
  match calls with
  | [] => ([], s)
  | c :: rest =>
    let (r, s1) := validateLocator c.env c.input c.options s
    let (rs, s2) := runCalls rest s1
    (r :: rs, s2)

/-- Does an outcome report a successful (`VALID`) claim of ticket key `k`? -/
def referencesKey (r : Except VError ValidateLocatorResponse) (k : String) : Bool :=
  match r with
  | .ok resp =>
    resp.result == .VALID &&
      (match resp.ticket with
       | some t => t.ticketId == k
       | none => false)
  | .error _ => false

/-! ## Spec-side characterization of the identity-document validator (claim C5)

These two predicates transcribe the specification's wording: a DNI is 8 digits
followed by the check letter computed from the numeric part, an NIE is a
leading `X`/`Y`/`Z` mapped to a prefix digit, 7 digits, and the check letter of
the combined number. -/

/-- Spec wording, DNI form: the string decomposes as 8 digits plus a final
character equal to the `(number mod 23)`-th letter of the fixed sequence. -/
def SpecDniForm (s : String) : Prop :=
  ∃ ds l, s.data = ds ++ [l] ∧ ds.length = 8 ∧ (∀ c ∈ ds, c.isDigit = true) ∧
    checkLetter (digitsToNat ds) = l

/-- Spec wording, NIE form: leading `X`/`Y`/`Z`, 7 digits, and a final
character equal to the check letter of the prefix digit prepended to the 7
digits. -/
def SpecNieForm (s : String) : Prop :=
  ∃ x ds l, s.data = x :: (ds ++ [l]) ∧ (x = 'X' ∨ x = 'Y' ∨ x = 'Z') ∧ ds.length = 7 ∧
    (∀ c ∈ ds, c.isDigit = true) ∧ checkLetter (digitsToNat (nieDigit x :: ds)) = l

/-! ## Spec-level definitions done; decidability instances and concrete
fixtures used by witnesses and counterexamples -/

instance {ε α : Type} [DecidableEq ε] [DecidableEq α] : DecidableEq (Except ε α) := fun a b =>
  match a, b with
  | .ok x, .ok y =>
    if h : x = y then isTrue (by rw [h]) else isFalse (by simp [h])
  | .error x, .error y =>
    if h : x = y then isTrue (by rw [h]) else isFalse (by simp [h])
  | .ok _, .error _ => isFalse (by simp)
  | .error _, .ok _ => isFalse (by simp)

/-! ## Concrete fixtures used by witnesses and counterexamples -/

/-- An environment with a constant candidate list and the identity hash. -/
def fixEnv (mode : Mode) (cands : List TicketingLocatorCandidate) : Env :=
  { mode := mode, listLocatorCandidates := fun _ => .ok cands, hashFn := id }

/-- The normalized input shared by several concrete scenarios. -/
def fixNorm : NormInput := { locator := "L1", dni := "12345678Z", serviceId := none }

/-- A stored response used to populate idempotency rows in scenarios. -/
def fixStoredResp : ValidateLocatorResponse :=
  { result := .INVALID, reason := some .NOT_FOUND, timestamps := { createdAt := 5, updatedAt := 5 } }

/-- A stored idempotency row whose fingerprint matches `fixNorm`. -/
def fixIdemRow : IdempotencyRow :=
  { idempotency_key := "k", endpoint := "validate-locator",
    request_hash := canonicalPayload fixNorm, response_json := fixStoredResp, created_at := 0 }

/-- A state holding only that idempotency row. -/
def fixIdemState : EngineState := { db := { idempotency := [fixIdemRow] } }

/-- An environment whose candidate source always fails (a transient upstream
outage). -/
def failFixEnv : Env :=
  { mode := .ticketing, listLocatorCandidates := fun _ => .error "boom", hashFn := id }

/-- A computed response distinct from the stored `fixStoredResp`. -/
def fixComputedResp : ValidateLocatorResponse :=
  { result := .VALID, timestamps := { createdAt := 9, updatedAt := 9 } }

/-- First candidate of the sequential-exhaustion scenario. -/
def c4cand1 : TicketingLocatorCandidate :=
  { ticketKey := "tk-1", sequence := some 1, dni := some "12345678Z" }

/-- Second candidate of the sequential-exhaustion scenario. -/
def c4cand2 : TicketingLocatorCandidate :=
  { ticketKey := "tk-2", sequence := some 2, dni := some "12345678Z" }

/-- One call of the sequential-exhaustion scenario, under idempotency key `k`. -/
def c4call (k : String) : Call :=
  { env := fixEnv .ticketing [c4cand1, c4cand2],
    input := { locator := some "L1", dni := some "12345678Z" },
    options := { idempotencyKey := some k } }

/-- The observable summary of a call outcome: result, reason, remainingAfter
and the claimed ticket id. -/
def respSummary (r : Except VError ValidateLocatorResponse) :
    Except VError (VResult × Option VReason × Option Nat × Option String) :=
  r.map (fun resp =>
    (resp.result, resp.reason, resp.remainingAfter, resp.ticket.map TicketInfo.ticketId))

/-- Sort-boundary fixture: an explicit sequence equal to
`Number.MAX_SAFE_INTEGER`. -/
def msiB : TicketingLocatorCandidate :=
  { ticketKey := "B", sequence := some 9007199254740991 }

/-- Sort-boundary fixture: an absent sequence. -/
def msiA : TicketingLocatorCandidate := { ticketKey := "A" }

/-- First sort key of the local `ORDER BY sequence ASC NULLS LAST ...`:
rows with a sequence rank before rows without one. -/
def nullRank (r : LocatorTicketRow) : Nat := if r.sequence.isSome then 0 else 1

/-- Replay fixture: a ticketing call that always carries the same idempotency
key. -/
def c1call : Call :=
  { env := fixEnv .ticketing [c4cand1],
    input := { locator := some "L1", dni := some "12345678Z" },
    options := { idempotencyKey := some "same" } }

/-- Every character of the check-letter sequence is an uppercase letter, so the
`[A-Z]` test in the regexes is implied by matching the check letter. -/
theorem checkLetter_isUpper (n : Nat) : (checkLetter n).isUpper = true := by
  have h : n % 23 < 23 := Nat.mod_lt _ (by norm_num)
  have h23 : ∀ m, m < 23 → ((dniLetters.getD m ' ').isUpper = true) := by decide
  exact h23 _ h

/-- The three possible NIE lead letters are not digits, so the DNI branch of
the validator never fires on an NIE-shaped string. -/
theorem xyz_not_digit {x : Char} (h : x = 'X' ∨ x = 'Y' ∨ x = 'Z') : x.isDigit = false := by
  rcases h with rfl | rfl | rfl <;> decide

/-- Claim C5: the identity-document validator accepts exactly the strings of
DNI form (8 digits then one character) or NIE form (`X`/`Y`/`Z`, 7 digits,
one character) whose final character is the `(numeric part mod 23)`-th letter
of `TRWAGMYFPDXBNJZSQVHLCKE`, the NIE lead letter being mapped to `0`/`1`/`2`
and prepended before the `mod`; every other string is rejected. -/
theorem claim_C5_dni_nie_validator (s : String) :
    isValidSpanishDniNie s = true ↔ SpecDniForm s ∨ SpecNieForm s := by
  unfold isValidSpanishDniNie SpecDniForm SpecNieForm
  generalize s.data = cs
  constructor
  · intro h
    rcases cs with _ | ⟨c1, cs⟩; · simp at h
    rcases cs with _ | ⟨c2, cs⟩; · simp at h
    rcases cs with _ | ⟨c3, cs⟩; · simp at h
    rcases cs with _ | ⟨c4, cs⟩; · simp at h
    rcases cs with _ | ⟨c5, cs⟩; · simp at h
    rcases cs with _ | ⟨c6, cs⟩; · simp at h
    rcases cs with _ | ⟨c7, cs⟩; · simp at h
    rcases cs with _ | ⟨c8, cs⟩; · simp at h
    rcases cs with _ | ⟨c9, cs⟩; · simp at h
    rcases cs with _ | ⟨c10, cs⟩
    · simp only [] at h
      split_ifs at h with hA hB
      · left
        simp only [Bool.and_eq_true, List.all_eq_true] at hA
        refine ⟨[c1,c2,c3,c4,c5,c6,c7,c8], c9, rfl, rfl, ?_, ?_⟩
        · intro c hc
          exact hA.1 c hc
        · exact (beq_iff_eq.mp h)
      · right
        simp only [Bool.and_eq_true, Bool.or_eq_true, beq_iff_eq, List.all_eq_true] at hB
        refine ⟨c1, [c2,c3,c4,c5,c6,c7,c8], c9, rfl, or_assoc.mp hB.1.1, rfl, ?_, ?_⟩
        · intro c hc
          exact hB.1.2 c hc
        · exact (beq_iff_eq.mp h)
    · simp at h
  · intro h
    rcases h with ⟨ds, l, hcs, hlen, hdig, hchk⟩ | ⟨x, ds, l, hcs, hx, hlen, hdig, hchk⟩
    · rcases ds with _ | ⟨a1, ds⟩; · simp at hlen
      rcases ds with _ | ⟨a2, ds⟩; · simp at hlen
      rcases ds with _ | ⟨a3, ds⟩; · simp at hlen
      rcases ds with _ | ⟨a4, ds⟩; · simp at hlen
      rcases ds with _ | ⟨a5, ds⟩; · simp at hlen
      rcases ds with _ | ⟨a6, ds⟩; · simp at hlen
      rcases ds with _ | ⟨a7, ds⟩; · simp at hlen
      rcases ds with _ | ⟨a8, ds⟩; · simp at hlen
      rcases ds with _ | ⟨a9, ds⟩
      swap; · simp at hlen
      subst hcs
      simp only [List.cons_append, List.nil_append]
      rw [if_pos]
      · rw [beq_iff_eq]
        exact hchk
      · simp only [Bool.and_eq_true, List.all_eq_true]
        exact ⟨fun c hc => hdig c hc, hchk ▸ checkLetter_isUpper _⟩
    · rcases ds with _ | ⟨a1, ds⟩; · simp at hlen
      rcases ds with _ | ⟨a2, ds⟩; · simp at hlen
      rcases ds with _ | ⟨a3, ds⟩; · simp at hlen
      rcases ds with _ | ⟨a4, ds⟩; · simp at hlen
      rcases ds with _ | ⟨a5, ds⟩; · simp at hlen
      rcases ds with _ | ⟨a6, ds⟩; · simp at hlen
      rcases ds with _ | ⟨a7, ds⟩; · simp at hlen
      rcases ds with _ | ⟨a8, ds⟩
      swap; · simp at hlen
      subst hcs
      simp only [List.cons_append, List.nil_append]
      rw [if_neg, if_pos]
      · rw [beq_iff_eq]
        exact hchk
      · simp only [Bool.and_eq_true, Bool.or_eq_true, beq_iff_eq, List.all_eq_true]
        exact ⟨⟨or_assoc.mpr hx, fun c hc => hdig c hc⟩, hchk ▸ checkLetter_isUpper _⟩
      · simp only [Bool.and_eq_true, List.all_eq_true]
        intro hcontra
        have := hcontra.1 x (by simp)
        rw [xyz_not_digit hx] at this
        exact Bool.false_ne_true this

/-! ## Helper lemmas on `takeWhile`/`dropWhile` used by the split analysis -/

theorem takeWhile_append_all {α} (p : α → Bool) (l₁ l₂ : List α)
    (h : ∀ c ∈ l₁, p c = true) :
    (l₁ ++ l₂).takeWhile p = l₁ ++ l₂.takeWhile p := by
  induction l₁ with
  | nil => rfl
  | cons a t ih =>
    have ha : p a = true := h a (by simp)
    simp [List.takeWhile_cons, ha, ih (fun c hc => h c (by simp [hc]))]

theorem dropWhile_append_all {α} (p : α → Bool) (l₁ l₂ : List α)
    (h : ∀ c ∈ l₁, p c = true) :
    (l₁ ++ l₂).dropWhile p = l₂.dropWhile p := by
  induction l₁ with
  | nil => rfl
  | cons a t ih =>
    have ha : p a = true := h a (by simp)
    simp [List.dropWhile_cons, ha, ih (fun c hc => h c (by simp [hc]))]

theorem string_isEmpty_false_of_data {s : String} (h : s.data ≠ []) : s.isEmpty = false := by
  rw [Bool.eq_false_iff]
  intro he
  rw [String.isEmpty_iff] at he
  subst he
  exact h rfl

theorem trySplit_characterization (raw : String) (parts : SplitParts) :
    trySplitLocatorDni raw = some parts ↔
      ∃ t1 seps t2, (jsTrim raw).data = t1 ++ seps ++ t2 ∧ t1 ≠ [] ∧ seps ≠ [] ∧ t2 ≠ [] ∧
        (∀ c ∈ t1, isSepChar c = false) ∧ (∀ c ∈ seps, isSepChar c = true) ∧
        (∀ c ∈ t2, isSepChar c = false) ∧ parts = ⟨⟨t1⟩, ⟨t2⟩⟩ := by
  constructor
  · intro h
    simp only [trySplitLocatorDni] at h
    split_ifs at h with h0 h1
    refine ⟨(jsTrim raw).data.takeWhile (fun c => !isSepChar c),
      ((jsTrim raw).data.dropWhile (fun c => !isSepChar c)).takeWhile isSepChar,
      ((jsTrim raw).data.dropWhile (fun c => !isSepChar c)).dropWhile isSepChar,
      ?_, ?_, ?_, ?_, ?_, ?_, ?_, ?_⟩
    · rw [List.append_assoc, List.takeWhile_append_dropWhile, List.takeWhile_append_dropWhile]
    · simp only [Bool.or_eq_true, not_or] at h1
      intro hnil
      exact h1.1.1.1 (by simp [hnil])
    · simp only [Bool.or_eq_true, not_or] at h1
      intro hnil
      exact h1.1.1.2 (by simp [hnil])
    · simp only [Bool.or_eq_true, not_or] at h1
      intro hnil
      exact h1.1.2 (by simp [hnil])
    · intro c hc
      have := List.mem_takeWhile_imp hc
      simpa using this
    · intro c hc
      exact List.mem_takeWhile_imp hc
    · intro c hc
      simp only [Bool.or_eq_true, not_or] at h1
      cases hx : (((jsTrim raw).data.dropWhile (fun c => !isSepChar c)).dropWhile isSepChar).all
          (fun c => !isSepChar c) with
      | false => exact absurd (by simp [hx]) h1.2
      | true =>
        have := List.all_eq_true.mp hx c hc
        simpa using this
    · exact (Option.some.inj h).symm
  · rintro ⟨t1, seps, t2, hdata, ht1, hseps, ht2, hns1, hsep, hns2, hparts⟩
    rcases seps with _ | ⟨e, seps'⟩
    · exact absurd rfl hseps
    rcases t2 with _ | ⟨u, t2'⟩
    · exact absurd rfl ht2
    have hne : (jsTrim raw).isEmpty = false := by
      apply string_isEmpty_false_of_data
      rw [hdata]
      rcases t1 with _ | ⟨a, t1'⟩
      · exact absurd rfl ht1
      · simp
    have htake1 : (jsTrim raw).data.takeWhile (fun c => !isSepChar c) = t1 := by
      rw [hdata, List.append_assoc,
        takeWhile_append_all _ t1 _ (fun c hc => by simp [hns1 c hc])]
      simp [List.takeWhile_cons, hsep e (by simp)]
    have hdrop1 : (jsTrim raw).data.dropWhile (fun c => !isSepChar c) = (e :: seps') ++ u :: t2' := by
      rw [hdata, List.append_assoc,
        dropWhile_append_all _ t1 _ (fun c hc => by simp [hns1 c hc])]
      simp [List.dropWhile_cons, hsep e (by simp)]
    have htake2 : ((e :: seps') ++ u :: t2').takeWhile isSepChar = e :: seps' := by
      rw [takeWhile_append_all _ _ _ (fun c hc => hsep c (by simp [hc]))]
      simp [List.takeWhile_cons, hns2 u (by simp)]
    have hdrop2 : ((e :: seps') ++ u :: t2').dropWhile isSepChar = u :: t2' := by
      rw [dropWhile_append_all _ _ _ (fun c hc => hsep c (by simp [hc]))]
      simp [List.dropWhile_cons, hns2 u (by simp)]
    have hguard : (t1.isEmpty || (e :: seps').isEmpty || (u :: t2').isEmpty
        || !((u :: t2').all fun c => !isSepChar c)) = false := by
      have h1 : t1.isEmpty = false := by
        rcases t1 with _ | ⟨a, t1'⟩
        · exact absurd rfl ht1
        · rfl
      have h2 : (u :: t2').all (fun c => !isSepChar c) = true := by
        simp only [List.all_eq_true]
        intro c hc
        simp [hns2 c hc]
      simp [h1, h2]
    simp only [trySplitLocatorDni, hne, Bool.false_eq_true, if_false, htake1, hdrop1, htake2,
      hdrop2, hguard, hparts]


/-- Uppercasing preserves length, so a non-blank locator stays non-empty. -/
theorem toUpperStr_length (s : String) : (toUpperStr s).length = s.length :=
  List.length_map _ _

/-- Claim C8, counterexample: for the body `{locator: "ABC|12345678Z"}` with a
missing `dni`, the engine accepts the split but keeps the whole combined token
as the locator, instead of using the first token `"ABC"` as the claim states. -/
theorem claim_C8_counterexample :
    normalizeValidateLocatorInput
        { locator := some "ABC|12345678Z", dni := none, serviceId := none } =
      .ok { locator := "ABC|12345678Z", dni := "12345678Z", serviceId := none } ∧
    ("ABC|12345678Z" : String) ≠ "ABC" :=
  ⟨by decide, by decide⟩

/-- Claim C8 (amended): the combined token supplied in the `locator` field is
split on one or more separators (`|`, `-`, whitespace) exactly when it trims to
two non-empty separator-free tokens; when the `dni` field is missing or blank
the second token becomes the dni while the locator keeps the whole combined
token (trimmed, uppercased); a successful normalization always has non-empty
locator and dni, and the only normalization failure is the `InvalidRequest`
error for an empty locator or dni. -/
theorem claim_C8_split_normalization :
    (∀ raw parts, trySplitLocatorDni raw = some parts ↔
      ∃ t1 seps t2, (jsTrim raw).data = t1 ++ seps ++ t2 ∧ t1 ≠ [] ∧ seps ≠ [] ∧ t2 ≠ [] ∧
        (∀ c ∈ t1, isSepChar c = false) ∧ (∀ c ∈ seps, isSepChar c = true) ∧
        (∀ c ∈ t2, isSepChar c = false) ∧ parts = ⟨⟨t1⟩, ⟨t2⟩⟩) ∧
    (∀ L dniOpt sid parts, trySplitLocatorDni L = some parts → 0 < (jsTrim L).length →
      (dniOpt = none ∨ (∃ d, dniOpt = some d ∧ (jsTrim d).length = 0)) →
      normalizeValidateLocatorInput { locator := some L, dni := dniOpt, serviceId := sid } =
        (if (normalizeDni parts.dni).length = 0 then
           .error (.badRequest "locator and dni cannot be empty")
         else
           .ok { locator := toUpperStr (jsTrim L), dni := normalizeDni parts.dni,
                 serviceId := normalizeServiceId sid })) ∧
    (∀ input r, normalizeValidateLocatorInput input = .ok r →
      0 < r.locator.length ∧ 0 < r.dni.length) ∧
    (∀ input e, normalizeValidateLocatorInput input = .error e →
      e = .badRequest "locator and dni cannot be empty") := by
  refine ⟨trySplit_characterization, ?_, ?_, ?_⟩
  · intro L dniOpt sid parts hsplit hL hdni
    have hLlen : ¬((toUpperStr (jsTrim L)).length = 0) := by
      rw [toUpperStr_length]
      omega
    have hloc : rawLocatorOf { locator := some L, dni := dniOpt, serviceId := sid } = L := by
      simp only [rawLocatorOf]
      rw [if_pos hL]
    have hdniRaw :
        rawDniOf { locator := some L, dni := dniOpt, serviceId := sid } = parts.dni := by
      rcases hdni with rfl | ⟨d, rfl, hd⟩
      · simp [rawDniOf, fallbackPartsOf, hsplit]
      · simp only [rawDniOf, fallbackPartsOf]
        rw [if_neg (show ¬(0 < (jsTrim d).length) by omega), hsplit]
        rfl
    unfold normalizeValidateLocatorInput
    rw [hloc, hdniRaw]
    by_cases hdlen : (normalizeDni parts.dni).length = 0
    · rw [if_pos (by simp [hdlen]), if_pos hdlen]
    · rw [if_neg (by simp [hdlen, hLlen]), if_neg hdlen]
  · intro input r h
    unfold normalizeValidateLocatorInput at h
    split_ifs at h with hc
    simp only [Except.ok.injEq] at h
    subst h
    simp only [Bool.or_eq_true, decide_eq_true_eq, not_or] at hc
    exact ⟨Nat.pos_of_ne_zero hc.1, Nat.pos_of_ne_zero hc.2⟩
  · intro input e h
    unfold normalizeValidateLocatorInput at h
    split_ifs at h with hc
    simp only [Except.error.injEq] at h
    exact h.symm

/-- Claim C8 witness: the amended theorem applied to the concrete body
`{locator: "AB|C"}` with a missing dni. -/
theorem claim_C8_split_normalization_witness :
    normalizeValidateLocatorInput { locator := some "AB|C", dni := none, serviceId := none } =
      (if (normalizeDni (SplitParts.dni ⟨"AB", "C"⟩)).length = 0 then
         .error (.badRequest "locator and dni cannot be empty")
       else
         .ok { locator := toUpperStr (jsTrim "AB|C"),
               dni := normalizeDni (SplitParts.dni ⟨"AB", "C"⟩),
               serviceId := normalizeServiceId none }) :=
  claim_C8_split_normalization.2.1 "AB|C" none none ⟨"AB", "C"⟩ (by decide) (by decide)
    (Or.inl rfl)


/-- Claim C2: when an idempotency record for the (trimmed) key exists at
lookup, a matching fingerprint returns the stored response verbatim with the
whole engine state unchanged, and a differing fingerprint fails with the
idempotency-conflict client error, again leaving the state unchanged — in
both cases before any consumption attempt. -/
theorem claim_C2_idempotency_gate (env : Env) (input : RawInput) (options : CallOptions)
    (s : EngineState) (norm : NormInput) (k : String) (row : IdempotencyRow)
    (hnorm : normalizeValidateLocatorInput input = .ok norm)
    (hkey : effectiveIdempotencyKey options = some k)
    (hrow : findIdempotentResponse s k = some row) :
    (row.request_hash = buildRequestHash env norm →
      validateLocator env input options s = (.ok row.response_json, s)) ∧
    (row.request_hash ≠ buildRequestHash env norm →
      validateLocator env input options s =
        (.error (.badRequest "Idempotency-Key already used with different payload"), s)) := by
  constructor
  · intro heq
    simp only [validateLocator, hnorm, hkey, withTransaction, validateLocatorTxnBody, hrow]
    rw [if_neg (by simp [heq])]
  · intro hne
    simp only [validateLocator, hnorm, hkey, withTransaction, validateLocatorTxnBody, hrow]
    rw [if_pos hne]
    rfl

/-- Claim C2 witness: a concrete replay against a stored matching row returns
the stored response and leaves the state untouched. -/
theorem claim_C2_idempotency_gate_witness :
    validateLocator (fixEnv .ticketing [])
        { locator := some "L1", dni := some "12345678Z", serviceId := none }
        { idempotencyKey := some "k" } fixIdemState =
      (.ok fixStoredResp, fixIdemState) :=
  (claim_C2_idempotency_gate (fixEnv .ticketing [])
    { locator := some "L1", dni := some "12345678Z", serviceId := none }
    { idempotencyKey := some "k" } fixIdemState fixNorm "k" fixIdemRow
    (by decide) (by decide) (by decide)).1 rfl


/-- A normalization failure is always the empty-locator-or-dni client error. -/
theorem normalize_error_badRequest (input : RawInput) (e : VError)
    (h : normalizeValidateLocatorInput input = .error e) :
    e = .badRequest "locator and dni cannot be empty" := by
  unfold normalizeValidateLocatorInput at h
  split_ifs at h with hc
  simp only [Except.error.injEq] at h
  exact h.symm

/-- Claim C9: an error inside the `validateLocator` transaction rolls the
database back to its pre-transaction contents; `HttpException`s (the
`InvalidRequest` and `IdempotencyConflict` client errors and explicit server
errors) propagate verbatim, every other failure surfaces as the generic
`internalServer "ERROR"`; consequently every failing call leaves the ledgers,
idempotency store and local tickets exactly as they were. -/
theorem claim_C9_error_rollback (env : Env) (input : RawInput) (options : CallOptions) (s : EngineState) :
    (∀ norm e s1, normalizeValidateLocatorInput input = .ok norm →
      validateLocatorTxnBody env norm (effectiveIdempotencyKey options)
          (buildRequestHash env norm) options s = (.error e, s1) →
      validateLocator env input options s =
        (.error (if e.isHttpException then e else .internalServer "ERROR"),
         { s1 with db := s.db })) ∧
    (∀ e s1, validateLocator env input options s = (.error e, s1) →
      s1.db = s.db ∧ e.isHttpException = true) := by
  constructor
  · intro norm e s1 hnorm htxn
    simp only [validateLocator, hnorm, withTransaction, htxn]
    cases he : e.isHttpException <;> simp [he]
  · intro e s1 h
    unfold validateLocator at h
    cases hnorm : normalizeValidateLocatorInput input with
    | error e0 =>
      rw [hnorm] at h
      simp only [Prod.mk.injEq, Except.error.injEq] at h
      obtain ⟨rfl, rfl⟩ := h
      refine ⟨rfl, ?_⟩
      rw [normalize_error_badRequest input e0 hnorm]
      rfl
    | ok norm =>
      rw [hnorm] at h
      cases htx : validateLocatorTxnBody env norm (effectiveIdempotencyKey options)
          (buildRequestHash env norm) options s with
      | mk r s2 =>
        cases r with
        | ok resp =>
          simp only [withTransaction, htx] at h
          exact absurd h (by simp)
        | error e2 =>
          simp only [withTransaction, htx] at h
          cases he2 : e2.isHttpException with
          | true =>
            rw [if_pos he2] at h
            simp only [Prod.mk.injEq, Except.error.injEq] at h
            obtain ⟨rfl, rfl⟩ := h
            exact ⟨rfl, he2⟩
          | false =>
            rw [if_neg (by simp [he2])] at h
            simp only [Prod.mk.injEq, Except.error.injEq] at h
            obtain ⟨rfl, rfl⟩ := h
            exact ⟨rfl, rfl⟩

/-- Claim C9 witness: a candidate-source failure surfaces as the generic
server error and leaves the (empty) database untouched, with only the
instrumentation counter recording the adapter call. -/
theorem claim_C9_error_rollback_witness :
    validateLocator failFixEnv
        { locator := some "L1", dni := some "12345678Z", serviceId := none } {} {} =
      (.error (.internalServer "ERROR"), { sourceCalls := 1 }) :=
  (claim_C9_error_rollback failFixEnv
    { locator := some "L1", dni := some "12345678Z", serviceId := none } {} {}).1
    fixNorm (.adapterFailure "boom") { sourceCalls := 1 } (by decide) (by decide)


/-- Claim C7, counterexample: when the persist step hits an existing record
with a matching fingerprint, the call returns its own computed response, not
the stored one — here the store holds `fixStoredResp` but the call still
returns `fixComputedResp`. -/
theorem claim_C7_counterexample :
    persistPhase fixIdemState "k" (canonicalPayload fixNorm) fixComputedResp =
      (.ok fixComputedResp, fixIdemState) ∧
    findIdempotentResponse fixIdemState "k" = some fixIdemRow ∧
    fixIdemRow.response_json ≠ fixComputedResp :=
  ⟨by decide, by decide, by decide⟩

/-- Claim C7 (amended): when the post-core persist of the computed response
finds the `(key, "validate-locator")` row already present, it re-reads the
stored record and applies the conflict half of the lookup rule — a differing
fingerprint fails with the `IdempotencyConflict` client error (state
unchanged), while a matching fingerprint makes the persist a no-op and the
call returns its own computed response rather than the stored one. -/
theorem claim_C7_persist_race (s : EngineState) (k h : String)
    (resp : ValidateLocatorResponse) (row : IdempotencyRow)
    (hrow : findIdempotentResponse s k = some row) :
    (row.request_hash ≠ h →
      persistPhase s k h resp =
        (.error (.badRequest "Idempotency-Key already used with different payload"), s)) ∧
    (row.request_hash = h → persistPhase s k h resp = (.ok resp, s)) := by
  have hfind : s.db.idempotency.find? (fun r =>
      r.idempotency_key == k && r.endpoint == "validate-locator") = some row := hrow
  have hpred := @List.find?_some _
    (fun r : IdempotencyRow => r.idempotency_key == k && r.endpoint == "validate-locator")
    row s.db.idempotency hfind
  have hany : (s.db.idempotency.any (fun r =>
      r.idempotency_key == k && r.endpoint == "validate-locator")) = true :=
    List.any_eq_true.mpr ⟨row, List.mem_of_find?_eq_some hfind, hpred⟩
  constructor
  · intro hne
    simp only [persistPhase, persistIdempotentResponse, hany, if_true, hrow]
    rw [if_pos hne]
  · intro heq
    simp only [persistPhase, persistIdempotentResponse, hany, if_true, hrow]
    rw [if_neg (by simp [heq])]

/-- Claim C7 witness: the matching-fingerprint conjunct at the concrete
one-row store. -/
theorem claim_C7_persist_race_witness :
    persistPhase fixIdemState "k" (canonicalPayload fixNorm) fixComputedResp =
      (.ok fixComputedResp, fixIdemState) :=
  (claim_C7_persist_race fixIdemState "k" (canonicalPayload fixNorm) fixComputedResp
    fixIdemRow (by decide)).2 rfl

/-! ## The atomic claim and the candidate walk -/

theorem tryConsume_frame (s : EngineState) (i : ConsumeInput) :
    ((tryConsumeTicketingCandidate s i).2).db.idempotency = s.db.idempotency ∧
    ((tryConsumeTicketingCandidate s i).2).db.validations = s.db.validations ∧
    ((tryConsumeTicketingCandidate s i).2).db.locatorTickets = s.db.locatorTickets ∧
    ((tryConsumeTicketingCandidate s i).2).sourceCalls = s.sourceCalls ∧
    ((tryConsumeTicketingCandidate s i).2).localLookups = s.localLookups := by
  unfold tryConsumeTicketingCandidate
  split <;> exact ⟨rfl, rfl, rfl, rfl, rfl⟩

theorem consumptions_any_iff (s : EngineState) (k : String) :
    (s.db.consumptions.any (fun r => r.ticket_key == k)) = true ↔ k ∈ consumptionKeys s := by
  rw [List.any_eq_true]
  unfold consumptionKeys
  simp only [beq_iff_eq, List.mem_map]

theorem tryConsume_of_mem (s : EngineState) (i : ConsumeInput)
    (h : i.ticketKey ∈ consumptionKeys s) :
    tryConsumeTicketingCandidate s i = (false, s) := by
  unfold tryConsumeTicketingCandidate
  rw [if_pos ((consumptions_any_iff s i.ticketKey).mpr h)]

theorem tryConsume_of_not_mem (s : EngineState) (i : ConsumeInput)
    (h : i.ticketKey ∉ consumptionKeys s) :
    tryConsumeTicketingCandidate s i =
      (true, { s with clock := s.clock + 1, db :=
        { s.db with consumptions := s.db.consumptions ++ [consumptionRowOf i s.clock] } }) := by
  unfold tryConsumeTicketingCandidate
  rw [if_neg (by
    intro hc
    exact h ((consumptions_any_iff s i.ticketKey).mp hc))]
  rfl

theorem tryConsume_keys (s : EngineState) (i : ConsumeInput) (k : String)
    (h : k ∈ consumptionKeys s) : k ∈ consumptionKeys (tryConsumeTicketingCandidate s i).2 := by
  by_cases hmem : i.ticketKey ∈ consumptionKeys s
  · rw [tryConsume_of_mem s i hmem]
    exact h
  · rw [tryConsume_of_not_mem s i hmem]
    unfold consumptionKeys at h ⊢
    rw [List.map_append]
    exact List.mem_append_left _ h

theorem mem_getConsumedTicketKeys (s : EngineState) (keys : List String) (x : String) :
    x ∈ getConsumedTicketKeys s keys ↔ (x ∈ consumptionKeys s ∧ x ∈ keys) := by
  unfold getConsumedTicketKeys consumptionKeys
  by_cases h : keys.length = 0
  · rw [if_pos h]
    rw [List.length_eq_zero] at h
    subst h
    simp
  · rw [if_neg h]
    simp only [List.mem_map, List.mem_filter]
    constructor
    · rintro ⟨r, ⟨hr, hcont⟩, rfl⟩
      exact ⟨⟨r, hr, rfl⟩, by simpa using hcont⟩
    · rintro ⟨⟨r, hr, rfl⟩, hk⟩
      exact ⟨r, ⟨hr, by simpa using hk⟩, rfl⟩

theorem walkClaim_spec (cands : List TicketingLocatorCandidate) (s : EngineState)
    (consumed : List String) (input : NormInput) (actor : ConsumeInput → ConsumeInput)
    (hact : ∀ i, (actor i).ticketKey = i.ticketKey)
    (hinv : ∀ c ∈ cands, (c.ticketKey ∈ consumed ↔ c.ticketKey ∈ consumptionKeys s)) :
    walkClaim s consumed cands input actor =
      match cands.find? (fun c => !((consumptionKeys s).contains c.ticketKey)) with
      | none => (none, consumed, s)
      | some c =>
        (some c, c.ticketKey :: consumed,
         (tryConsumeTicketingCandidate s (actor
           { ticketKey := c.ticketKey, locator := input.locator,
             serviceId := input.serviceId, validatedDni := input.dni })).2) := by
  induction cands with
  | nil => rfl
  | cons c rest ih =>
    have hc := hinv c (by simp)
    by_cases hmem : c.ticketKey ∈ consumed
    · have hkeys : c.ticketKey ∈ consumptionKeys s := hc.mp hmem
      have hcont : consumed.contains c.ticketKey = true := List.elem_eq_true_of_mem hmem
      have hfind : (c :: rest).find? (fun c => !((consumptionKeys s).contains c.ticketKey))
          = rest.find? (fun c => !((consumptionKeys s).contains c.ticketKey)) := by
        refine List.find?_cons_of_neg _ ?_
        intro hx
        rw [show (consumptionKeys s).contains c.ticketKey = true from
          List.elem_eq_true_of_mem hkeys] at hx
        simp at hx
      unfold walkClaim
      rw [if_pos hcont, ih (fun d hd => hinv d (by simp [hd])), hfind]
    · have hkeys : c.ticketKey ∉ consumptionKeys s := fun hx => hmem (hc.mpr hx)
      have hcont : consumed.contains c.ticketKey = false := by
        rw [Bool.eq_false_iff]
        intro hx
        exact hmem (List.mem_of_elem_eq_true hx)
      have hkeyscont : (consumptionKeys s).contains c.ticketKey = false := by
        rw [Bool.eq_false_iff]
        intro hx
        exact hkeys (List.mem_of_elem_eq_true hx)
      have hfind : (c :: rest).find? (fun c => !((consumptionKeys s).contains c.ticketKey))
          = some c := by
        refine List.find?_cons_of_pos _ ?_
        rw [hkeyscont]
        rfl
      unfold walkClaim
      rw [if_neg (by rw [hcont]; simp), hfind]
      rw [tryConsume_of_not_mem s (actor
        { ticketKey := c.ticketKey, locator := input.locator,
          serviceId := input.serviceId, validatedDni := input.dni })
        (by rw [hact]; exact hkeys)]
      simp only []
      rw [tryConsume_of_not_mem s (actor
        { ticketKey := c.ticketKey, locator := input.locator,
          serviceId := input.serviceId, validatedDni := input.dni })
        (by rw [hact]; exact hkeys)]
      simp

theorem actorApply_ticketKey (a : Actor) (i : ConsumeInput) :
    (Actor.apply a i).ticketKey = i.ticketKey := rfl

theorem ticketing_run_eq (env : Env) (s : EngineState) (input : NormInput) (a : Actor)
    (cands : List TicketingLocatorCandidate)
    (hdni : isValidSpanishDniNie input.dni = true)
    (hlist : env.hasListLocatorCandidates = true)
    (hc : env.listLocatorCandidates
      { locator := input.locator, dni := input.dni, serviceId := input.serviceId } = .ok cands)
    (hne : ¬(cands.length = 0)) :
    validateLocatorAgainstTicketing env s input a =
      (let s0 : EngineState := { s with sourceCalls := s.sourceCalls + 1 }
       let eligible := eligibleCandidatesOf cands input.dni
       if eligible.length = 0 then
         (.ok (buildFunctionalResponse
            (insertValidation s0 input.locator (input.serviceId.getD "")
              .INVALID (some "DNI_MISMATCH") none).1
            { result := .INVALID, reason := some .DNI_MISMATCH, timestamps := noTs }),
          (insertValidation s0 input.locator (input.serviceId.getD "")
            .INVALID (some "DNI_MISMATCH") none).2)
       else
         match eligible.find? (fun c => !((consumptionKeys s).contains c.ticketKey)) with
         | none =>
           (.ok (buildFunctionalResponse
              (insertValidation s0 input.locator (input.serviceId.getD "")
                .DUPLICATE (some "NO_REMAINING") none).1
              { result := .DUPLICATE, reason := some .NO_REMAINING,
                remainingAfter := some 0,
                duplicateRecordedAt := getLatestTicketingConsumptionAt s
                  (eligible.map TicketingLocatorCandidate.ticketKey),
                timestamps := noTs }),
            (insertValidation s0 input.locator (input.serviceId.getD "")
              .DUPLICATE (some "NO_REMAINING") none).2)
         | some c =>
           let s1 := (tryConsumeTicketingCandidate s0 (a.apply
             { ticketKey := c.ticketKey, locator := input.locator,
               serviceId := input.serviceId, validatedDni := input.dni })).2
           let remainingAfter := (eligible.filter (fun d =>
             !((c.ticketKey :: getConsumedTicketKeys s
                 (eligible.map TicketingLocatorCandidate.ticketKey)).contains
               d.ticketKey))).length
           (.ok (buildFunctionalResponse
              (insertValidation s1 input.locator (input.serviceId.getD "")
                .VALID none (some (c.ref.getD c.ticketKey))).1
              { result := .VALID, remainingAfter := some remainingAfter,
                ticket := some
                  { ticketId := c.ticketKey, ref := c.ref,
                    sequence := c.sequence, remainingAfter := some remainingAfter },
                timestamps := noTs }),
            (insertValidation s1 input.locator (input.serviceId.getD "")
              .VALID none (some (c.ref.getD c.ticketKey))).2)) := by
  unfold validateLocatorAgainstTicketing
  rw [hdni, hlist]
  simp only [Bool.not_true, Bool.not_false, Bool.false_eq_true, if_false, if_true, hc]
  rw [if_neg hne]
  set s0 : EngineState := { s with sourceCalls := s.sourceCalls + 1 } with hs0
  have hck : consumptionKeys s0 = consumptionKeys s := rfl
  have hgck : getConsumedTicketKeys s0 = getConsumedTicketKeys s := rfl
  by_cases helig : (eligibleCandidatesOf cands input.dni).length = 0
  · rw [if_pos helig, if_pos helig]
  · rw [if_neg helig, if_neg helig]
    rw [walkClaim_spec (eligibleCandidatesOf cands input.dni) s0
      (getConsumedTicketKeys s0
        ((eligibleCandidatesOf cands input.dni).map TicketingLocatorCandidate.ticketKey))
      input (Actor.apply a) (actorApply_ticketKey a)
      (fun c hcmem => by
        rw [mem_getConsumedTicketKeys]
        constructor
        · exact fun hx => hx.1
        · intro hx
          exact ⟨hx, List.mem_map_of_mem _ hcmem⟩)]
    rw [hck, hgck]
    cases hfind : (eligibleCandidatesOf cands input.dni).find?
        (fun c => !((consumptionKeys s).contains c.ticketKey)) with
    | none => rfl
    | some c => rfl

end Validador

namespace Validador

@[simp] theorem insertValidation_state (s : EngineState) (l sid : String) (res : VResult)
    (rsn rf : Option String) :
    (insertValidation s l sid res rsn rf).2 =
      { s with
        clock := s.clock + 1,
        db := { s.db with
                validations :=
                  s.db.validations ++ [(insertValidation s l sid res rsn rf).1] } } :=
  rfl

@[simp] theorem getLocatorStats_state (s : EngineState) (input : NormInput) :
    (getLocatorStats s input).2 = { s with localLookups := s.localLookups + 1 } := rfl

@[simp] theorem getNextPendingTicket_state (s : EngineState) (input : NormInput) (b : Bool) :
    (getNextPendingTicket s input b).2 = { s with localLookups := s.localLookups + 1 } := rfl

@[simp] theorem getRemainingPendingCount_state (s : EngineState) (input : NormInput) (b : Bool) :
    (getRemainingPendingCount s input b).2 = { s with localLookups := s.localLookups + 1 } := rfl

@[simp] theorem getLatestLocalValidatedAt_state (s : EngineState) (input : NormInput) (b : Bool) :
    (getLatestLocalValidatedAt s input b).2 = { s with localLookups := s.localLookups + 1 } := rfl

@[simp] theorem markTicket_consumptions (s : EngineState) (tid : Nat) (uid : Option String)
    (dni : String) :
    ((markTicketAsValidated s tid uid dni).2).db.consumptions = s.db.consumptions := by
  unfold markTicketAsValidated
  split <;> rfl

@[simp] theorem markTicket_idempotency (s : EngineState) (tid : Nat) (uid : Option String)
    (dni : String) :
    ((markTicketAsValidated s tid uid dni).2).db.idempotency = s.db.idempotency := by
  unfold markTicketAsValidated
  split <;> rfl

@[simp] theorem markTicket_validations (s : EngineState) (tid : Nat) (uid : Option String)
    (dni : String) :
    ((markTicketAsValidated s tid uid dni).2).db.validations = s.db.validations := by
  unfold markTicketAsValidated
  split <;> rfl

@[simp] theorem markTicket_sourceCalls (s : EngineState) (tid : Nat) (uid : Option String)
    (dni : String) :
    ((markTicketAsValidated s tid uid dni).2).sourceCalls = s.sourceCalls := by
  unfold markTicketAsValidated
  split <;> rfl

@[simp] theorem markTicket_localLookups (s : EngineState) (tid : Nat) (uid : Option String)
    (dni : String) :
    ((markTicketAsValidated s tid uid dni).2).localLookups = s.localLookups := by
  unfold markTicketAsValidated
  split <;> rfl

theorem local_invalid_dni (s : EngineState) (input : NormInput) (uid : Option String)
    (hdni : isValidSpanishDniNie input.dni = false) :
    consumeNextTicketByLocator s input uid =
      (let s0 : EngineState := { s with localLookups := s.localLookups + 1 }
       (.ok (buildFunctionalResponse
          (insertValidation s0 input.locator (input.serviceId.getD "")
            .INVALID (some "DNI_MISMATCH") none).1
          { result := .INVALID, reason := some .DNI_MISMATCH, timestamps := noTs }),
        (insertValidation s0 input.locator (input.serviceId.getD "")
          .INVALID (some "DNI_MISMATCH") none).2)) := by
  unfold consumeNextTicketByLocator
  rw [hdni]
  rfl

theorem local_not_found (s : EngineState) (input : NormInput) (uid : Option String)
    (hdni : isValidSpanishDniNie input.dni = true)
    (htot : (getLocatorStats s input).1.total_count = 0) :
    consumeNextTicketByLocator s input uid =
      (let s0 : EngineState := { s with localLookups := s.localLookups + 1 }
       (.ok (buildFunctionalResponse
          (insertValidation s0 input.locator (input.serviceId.getD "")
            .INVALID (some "NOT_FOUND") none).1
          { result := .INVALID, reason := some .NOT_FOUND, timestamps := noTs }),
        (insertValidation s0 input.locator (input.serviceId.getD "")
          .INVALID (some "NOT_FOUND") none).2)) := by
  unfold consumeNextTicketByLocator
  rw [hdni]
  simp only [Bool.not_true, Bool.false_eq_true, if_false]
  rw [if_pos htot]
  rfl

theorem local_dni_mismatch (s : EngineState) (input : NormInput) (uid : Option String)
    (hdni : isValidSpanishDniNie input.dni = true)
    (htot : ¬((getLocatorStats s input).1.total_count = 0))
    (hbound : 0 < (getLocatorStats s input).1.dni_bound_count ∧
      (getLocatorStats s input).1.matching_dni_count = 0) :
    consumeNextTicketByLocator s input uid =
      (let s0 : EngineState := { s with localLookups := s.localLookups + 1 }
       (.ok (buildFunctionalResponse
          (insertValidation s0 input.locator (input.serviceId.getD "")
            .INVALID (some "DNI_MISMATCH") none).1
          { result := .INVALID, reason := some .DNI_MISMATCH, timestamps := noTs }),
        (insertValidation s0 input.locator (input.serviceId.getD "")
          .INVALID (some "DNI_MISMATCH") none).2)) := by
  unfold consumeNextTicketByLocator
  rw [hdni]
  simp only [Bool.not_true, Bool.false_eq_true, if_false]
  rw [if_neg htot, if_pos (show (decide (0 < (getLocatorStats s input).1.dni_bound_count) &&
    decide ((getLocatorStats s input).1.matching_dni_count = 0)) = true by
      simp only [Bool.and_eq_true, decide_eq_true_eq]
      exact hbound)]
  rfl

theorem local_no_remaining (s : EngineState) (input : NormInput) (uid : Option String)
    (hdni : isValidSpanishDniNie input.dni = true)
    (htot : ¬((getLocatorStats s input).1.total_count = 0))
    (hbound : ¬(0 < (getLocatorStats s input).1.dni_bound_count ∧
      (getLocatorStats s input).1.matching_dni_count = 0))
    (hnext : (getNextPendingTicket (getLocatorStats s input).2 input
      (0 < (getLocatorStats s input).1.dni_bound_count)).1 = none) :
    consumeNextTicketByLocator s input uid =
      (let s1 := (getNextPendingTicket (getLocatorStats s input).2 input
        (0 < (getLocatorStats s input).1.dni_bound_count)).2
       let s2 := (getLatestLocalValidatedAt s1 input
        (0 < (getLocatorStats s input).1.dni_bound_count)).2
       (.ok (buildFunctionalResponse
          (insertValidation s2 input.locator (input.serviceId.getD "")
            .DUPLICATE (some "NO_REMAINING") none).1
          { result := .DUPLICATE, reason := some .NO_REMAINING,
            remainingAfter := some 0,
            duplicateRecordedAt := (getLatestLocalValidatedAt s1 input
              (0 < (getLocatorStats s input).1.dni_bound_count)).1,
            timestamps := noTs }),
        (insertValidation s2 input.locator (input.serviceId.getD "")
          .DUPLICATE (some "NO_REMAINING") none).2)) := by
  unfold consumeNextTicketByLocator
  rw [hdni]
  simp only [Bool.not_true, Bool.false_eq_true, if_false]
  rw [if_neg htot, if_neg (show ¬((decide (0 < (getLocatorStats s input).1.dni_bound_count) &&
    decide ((getLocatorStats s input).1.matching_dni_count = 0)) = true) by
      simp only [Bool.and_eq_true, decide_eq_true_eq]
      exact hbound)]
  rw [hnext]

theorem local_valid (s : EngineState) (input : NormInput) (uid : Option String)
    (nt : NextTicketRow) (ct : NextTicketRow)
    (hdni : isValidSpanishDniNie input.dni = true)
    (htot : ¬((getLocatorStats s input).1.total_count = 0))
    (hbound : ¬(0 < (getLocatorStats s input).1.dni_bound_count ∧
      (getLocatorStats s input).1.matching_dni_count = 0))
    (hnext : (getNextPendingTicket (getLocatorStats s input).2 input
      (0 < (getLocatorStats s input).1.dni_bound_count)).1 = some nt)
    (hmark : (markTicketAsValidated (getNextPendingTicket (getLocatorStats s input).2 input
      (0 < (getLocatorStats s input).1.dni_bound_count)).2 nt.id uid input.dni).1 = .ok ct) :
    consumeNextTicketByLocator s input uid =
      (let s1 := (getNextPendingTicket (getLocatorStats s input).2 input
        (0 < (getLocatorStats s input).1.dni_bound_count)).2
       let s2 := (markTicketAsValidated s1 nt.id uid input.dni).2
       let remainingAfter := (getRemainingPendingCount s2 input
         (0 < (getLocatorStats s input).1.dni_bound_count)).1
       let s3 := (getRemainingPendingCount s2 input
         (0 < (getLocatorStats s input).1.dni_bound_count)).2
       (.ok (buildFunctionalResponse
          (insertValidation s3 input.locator (input.serviceId.getD "")
            .VALID none (some (toString ct.id))).1
          { result := .VALID, remainingAfter := some remainingAfter,
            ticket := some
              { ticketId := toString ct.id, sequence := ct.sequence,
                remainingAfter := some remainingAfter },
            timestamps := noTs }),
        (insertValidation s3 input.locator (input.serviceId.getD "")
          .VALID none (some (toString ct.id))).2)) := by
  unfold consumeNextTicketByLocator
  rw [hdni]
  simp only [Bool.not_true, Bool.false_eq_true, if_false]
  rw [if_neg htot, if_neg (show ¬((decide (0 < (getLocatorStats s input).1.dni_bound_count) &&
    decide ((getLocatorStats s input).1.matching_dni_count = 0)) = true) by
      simp only [Bool.and_eq_true, decide_eq_true_eq]
      exact hbound)]
  rw [hnext]
  simp only []
  rw [hmark]

theorem local_mark_error (s : EngineState) (input : NormInput) (uid : Option String)
    (nt : NextTicketRow) (e : VError)
    (hdni : isValidSpanishDniNie input.dni = true)
    (htot : ¬((getLocatorStats s input).1.total_count = 0))
    (hbound : ¬(0 < (getLocatorStats s input).1.dni_bound_count ∧
      (getLocatorStats s input).1.matching_dni_count = 0))
    (hnext : (getNextPendingTicket (getLocatorStats s input).2 input
      (0 < (getLocatorStats s input).1.dni_bound_count)).1 = some nt)
    (hmark : (markTicketAsValidated (getNextPendingTicket (getLocatorStats s input).2 input
      (0 < (getLocatorStats s input).1.dni_bound_count)).2 nt.id uid input.dni).1 = .error e) :
    consumeNextTicketByLocator s input uid =
      (.error e, (markTicketAsValidated (getNextPendingTicket (getLocatorStats s input).2 input
        (0 < (getLocatorStats s input).1.dni_bound_count)).2 nt.id uid input.dni).2) := by
  unfold consumeNextTicketByLocator
  rw [hdni]
  simp only [Bool.not_true, Bool.false_eq_true, if_false]
  rw [if_neg htot, if_neg (show ¬((decide (0 < (getLocatorStats s input).1.dni_bound_count) &&
    decide ((getLocatorStats s input).1.matching_dni_count = 0)) = true) by
      simp only [Bool.and_eq_true, decide_eq_true_eq]
      exact hbound)]
  rw [hnext]
  simp only []
  rw [hmark]

theorem local_frame (s : EngineState) (input : NormInput) (uid : Option String) :
    (((consumeNextTicketByLocator s input uid).2).db.consumptions = s.db.consumptions) ∧
    (((consumeNextTicketByLocator s input uid).2).db.idempotency = s.db.idempotency) ∧
    (((consumeNextTicketByLocator s input uid).2).sourceCalls = s.sourceCalls) := by
  cases hdni : isValidSpanishDniNie input.dni with
  | false =>
    rw [local_invalid_dni s input uid hdni]
    exact ⟨by simp, by simp, by simp⟩
  | true =>
    by_cases htot : (getLocatorStats s input).1.total_count = 0
    · rw [local_not_found s input uid hdni htot]
      exact ⟨by simp, by simp, by simp⟩
    · by_cases hbound : 0 < (getLocatorStats s input).1.dni_bound_count ∧
        (getLocatorStats s input).1.matching_dni_count = 0
      · rw [local_dni_mismatch s input uid hdni htot hbound]
        exact ⟨by simp, by simp, by simp⟩
      · cases hnext : (getNextPendingTicket (getLocatorStats s input).2 input
            (0 < (getLocatorStats s input).1.dni_bound_count)).1 with
        | none =>
          rw [local_no_remaining s input uid hdni htot hbound hnext]
          exact ⟨by simp, by simp, by simp⟩
        | some nt =>
          cases hmark : (markTicketAsValidated (getNextPendingTicket (getLocatorStats s input).2
              input (0 < (getLocatorStats s input).1.dni_bound_count)).2
              nt.id uid input.dni).1 with
          | ok ct =>
            rw [local_valid s input uid nt ct hdni htot hbound hnext hmark]
            exact ⟨by simp, by simp, by simp⟩
          | error e =>
            rw [local_mark_error s input uid nt e hdni htot hbound hnext hmark]
            exact ⟨by simp, by simp, by simp⟩

theorem local_nonvalid_writes (s : EngineState) (input : NormInput) (uid : Option String)
    (r : ValidateLocatorResponse) (s' : EngineState)
    (h : consumeNextTicketByLocator s input uid = (.ok r, s'))
    (hres : r.result ≠ .VALID) :
    s'.db.locatorTickets = s.db.locatorTickets ∧
    ∃ row, s'.db.validations = s.db.validations ++ [row] := by
  cases hdni : isValidSpanishDniNie input.dni with
  | false =>
    rw [local_invalid_dni s input uid hdni] at h
    simp only [Prod.mk.injEq, Except.ok.injEq] at h
    obtain ⟨-, rfl⟩ := h
    exact ⟨by simp, _, rfl⟩
  | true =>
    by_cases htot : (getLocatorStats s input).1.total_count = 0
    · rw [local_not_found s input uid hdni htot] at h
      simp only [Prod.mk.injEq, Except.ok.injEq] at h
      obtain ⟨-, rfl⟩ := h
      exact ⟨by simp, _, rfl⟩
    · by_cases hbound : 0 < (getLocatorStats s input).1.dni_bound_count ∧
        (getLocatorStats s input).1.matching_dni_count = 0
      · rw [local_dni_mismatch s input uid hdni htot hbound] at h
        simp only [Prod.mk.injEq, Except.ok.injEq] at h
        obtain ⟨-, rfl⟩ := h
        exact ⟨by simp, _, rfl⟩
      · cases hnext : (getNextPendingTicket (getLocatorStats s input).2 input
            (0 < (getLocatorStats s input).1.dni_bound_count)).1 with
        | none =>
          rw [local_no_remaining s input uid hdni htot hbound hnext] at h
          simp only [Prod.mk.injEq, Except.ok.injEq] at h
          obtain ⟨-, rfl⟩ := h
          exact ⟨by simp, _, rfl⟩
        | some nt =>
          cases hmark : (markTicketAsValidated (getNextPendingTicket (getLocatorStats s input).2
              input (0 < (getLocatorStats s input).1.dni_bound_count)).2
              nt.id uid input.dni).1 with
          | ok ct =>
            rw [local_valid s input uid nt ct hdni htot hbound hnext hmark] at h
            simp only [Prod.mk.injEq, Except.ok.injEq] at h
            obtain ⟨hr, -⟩ := h
            exact absurd (by rw [← hr]; rfl) hres
          | error e =>
            rw [local_mark_error s input uid nt e hdni htot hbound hnext hmark] at h
            simp at h


/-- Unfolding equation for `walkClaim` on a cons cell. -/
theorem walkClaim_cons (s : EngineState) (consumed : List String)
    (c : TicketingLocatorCandidate) (rest : List TicketingLocatorCandidate)
    (input : NormInput) (actor : ConsumeInput → ConsumeInput) :
    walkClaim s consumed (c :: rest) input actor =
      (if consumed.contains c.ticketKey then walkClaim s consumed rest input actor
       else
         if (tryConsumeTicketingCandidate s (actor
             { ticketKey := c.ticketKey, locator := input.locator,
               serviceId := input.serviceId, validatedDni := input.dni })).1 then
           (some c, c.ticketKey :: consumed,
            (tryConsumeTicketingCandidate s (actor
              { ticketKey := c.ticketKey, locator := input.locator,
                serviceId := input.serviceId, validatedDni := input.dni })).2)
         else
           walkClaim (tryConsumeTicketingCandidate s (actor
               { ticketKey := c.ticketKey, locator := input.locator,
                 serviceId := input.serviceId, validatedDni := input.dni })).2
             (c.ticketKey :: consumed) rest input actor) := rfl

/-- The claim walk only ever writes to the consumption ledger: every other
table and both query counters pass through unchanged. -/
theorem walkClaim_frame (cands : List TicketingLocatorCandidate) (s : EngineState)
    (consumed : List String) (input : NormInput) (actor : ConsumeInput → ConsumeInput) :
    ((walkClaim s consumed cands input actor).2.2).db.idempotency = s.db.idempotency ∧
    ((walkClaim s consumed cands input actor).2.2).db.validations = s.db.validations ∧
    ((walkClaim s consumed cands input actor).2.2).db.locatorTickets = s.db.locatorTickets ∧
    ((walkClaim s consumed cands input actor).2.2).sourceCalls = s.sourceCalls ∧
    ((walkClaim s consumed cands input actor).2.2).localLookups = s.localLookups := by
  induction cands generalizing s consumed with
  | nil => exact ⟨rfl, rfl, rfl, rfl, rfl⟩
  | cons c rest ih =>
    rw [walkClaim_cons]
    split_ifs with h1 h2
    · exact ih s consumed
    · exact tryConsume_frame s _
    · obtain ⟨i1, i2, i3, i4, i5⟩ := ih (tryConsumeTicketingCandidate s (actor
        { ticketKey := c.ticketKey, locator := input.locator,
          serviceId := input.serviceId, validatedDni := input.dni })).2
        (c.ticketKey :: consumed)
      obtain ⟨t1, t2, t3, t4, t5⟩ := tryConsume_frame s (actor
        { ticketKey := c.ticketKey, locator := input.locator,
          serviceId := input.serviceId, validatedDni := input.dni })
      exact ⟨i1.trans t1, i2.trans t2, i3.trans t3, i4.trans t4, i5.trans t5⟩

/-- The idempotency persist phase never touches the three functional tables or
the query counters, in any of its outcomes. -/
theorem persistPhase_frame (s : EngineState) (k h : String)
    (resp : ValidateLocatorResponse) :
    ((persistPhase s k h resp).2).sourceCalls = s.sourceCalls ∧
    ((persistPhase s k h resp).2).localLookups = s.localLookups ∧
    ((persistPhase s k h resp).2).db.consumptions = s.db.consumptions ∧
    ((persistPhase s k h resp).2).db.locatorTickets = s.db.locatorTickets ∧
    ((persistPhase s k h resp).2).db.validations = s.db.validations := by
  have hidem : ((persistIdempotentResponse s k h resp).2).sourceCalls = s.sourceCalls ∧
      ((persistIdempotentResponse s k h resp).2).localLookups = s.localLookups ∧
      ((persistIdempotentResponse s k h resp).2).db.consumptions = s.db.consumptions ∧
      ((persistIdempotentResponse s k h resp).2).db.locatorTickets = s.db.locatorTickets ∧
      ((persistIdempotentResponse s k h resp).2).db.validations = s.db.validations := by
    unfold persistIdempotentResponse
    split
    · split
      · exact ⟨rfl, rfl, rfl, rfl, rfl⟩
      · split
        · exact ⟨rfl, rfl, rfl, rfl, rfl⟩
        · exact ⟨rfl, rfl, rfl, rfl, rfl⟩
    · exact ⟨rfl, rfl, rfl, rfl, rfl⟩
  obtain ⟨h1, h2, h3, h4, h5⟩ := hidem
  unfold persistPhase
  cases hp : persistIdempotentResponse s k h resp with
  | mk r s1 =>
    rw [hp] at h1 h2 h3 h4 h5
    cases r with
    | ok u => exact ⟨h1, h2, h3, h4, h5⟩
    | error e => exact ⟨h1, h2, h3, h4, h5⟩

/-- `findIdempotentResponse` only reads the idempotency table. -/
theorem findIdempotentResponse_congr (s s2 : EngineState) (k : String)
    (h : s2.db.idempotency = s.db.idempotency) :
    findIdempotentResponse s2 k = findIdempotentResponse s k := by
  unfold findIdempotentResponse
  rw [h]

/-- Persisting under a key with no existing `(key, endpoint)` row inserts the
record and returns the computed response unchanged. -/
theorem persistPhase_fresh (s : EngineState) (k h : String)
    (resp : ValidateLocatorResponse)
    (hf : findIdempotentResponse s k = none) :
    persistPhase s k h resp =
      (.ok resp,
       { s with clock := s.clock + 1,
                db := { s.db with idempotency := s.db.idempotency ++
                  [{ idempotency_key := k, endpoint := "validate-locator",
                     request_hash := h, response_json := resp,
                     created_at := s.clock }] } }) := by
  have hany : (s.db.idempotency.any (fun r =>
      r.idempotency_key == k && r.endpoint == "validate-locator")) = false := by
    rw [Bool.eq_false_iff]
    intro hx
    rw [List.any_eq_true] at hx
    obtain ⟨r, hr, hpr⟩ := hx
    have hnone := List.find?_eq_none.mp hf r hr
    exact hnone hpr
  unfold persistPhase persistIdempotentResponse
  rw [hany]
  rfl

/-- Ticketing-mode branch equation: an invalid identity document short-circuits
to `INVALID / DNI_MISMATCH` before the adapter is consulted. -/
theorem ticketing_invalid_dni (env : Env) (s : EngineState) (input : NormInput)
    (a : Actor) (hdni : isValidSpanishDniNie input.dni = false) :
    validateLocatorAgainstTicketing env s input a =
      (.ok (buildFunctionalResponse
          (insertValidation s input.locator (input.serviceId.getD "")
            .INVALID (some "DNI_MISMATCH") none).1
          { result := .INVALID, reason := some .DNI_MISMATCH, timestamps := noTs }),
       (insertValidation s input.locator (input.serviceId.getD "")
         .INVALID (some "DNI_MISMATCH") none).2) := by
  unfold validateLocatorAgainstTicketing
  rw [hdni]
  rfl

/-- With no stored idempotency record for the call's key, `validateLocator`
is the core run followed by the persist phase, with errors rolled back and
mapped by the outer handler. -/
theorem validateLocator_fresh_run (env : Env) (raw : RawInput) (opts : CallOptions)
    (s : EngineState) (norm : NormInput)
    (hnorm : normalizeValidateLocatorInput raw = .ok norm)
    (hfresh : ∀ k, effectiveIdempotencyKey opts = some k →
      findIdempotentResponse s k = none) :
    validateLocator env raw opts s =
      match runCore env norm opts s with
      | (.error e, s1) =>
        (.error (if e.isHttpException then e else .internalServer "ERROR"),
         { s1 with db := s.db })
      | (.ok response, s1) =>
        match effectiveIdempotencyKey opts with
        | none => (.ok response, s1)
        | some key =>
          match persistPhase s1 key (buildRequestHash env norm) response with
          | (.ok r, s2) => (.ok r, s2)
          | (.error e, s2) =>
            (.error (if e.isHttpException then e else .internalServer "ERROR"),
             { s2 with db := s.db }) := by
  simp only [validateLocator, hnorm, withTransaction, validateLocatorTxnBody]
  cases hkey : effectiveIdempotencyKey opts with
  | none =>
    simp only []
    cases hrun : runCore env norm opts s with
    | mk r s1 =>
      cases r with
      | ok response => rfl
      | error e =>
        simp only []
        split <;> rfl
  | some key =>
    simp only []
    rw [hfresh key hkey]
    simp only []
    cases hrun : runCore env norm opts s with
    | mk r s1 =>
      cases r with
      | ok response =>
        simp only []
        cases hper : persistPhase s1 key (buildRequestHash env norm) response with
        | mk pr s2 =>
          cases pr with
          | ok u => rfl
          | error e =>
            simp only []
            split <;> rfl
      | error e =>
        simp only []
        split <;> rfl


/-- Claim C6 counterexample: in local mode a request whose dni fails the
checksum (`00000000X`) still triggers the `locator_tickets` stats query before
the `INVALID / DNI_MISMATCH` outcome is returned — the local-lookup counter
rises from 0 to 1, so the candidate source is consulted, contrary to the
claim's "in either source mode". -/
theorem claim_C6_counterexample :
    ({} : EngineState).localLookups = 0 ∧
    (validateLocator (fixEnv .local [])
      { locator := some "L1", dni := some "00000000X" } {} {}).1
      = .ok { result := .INVALID, reason := some .DNI_MISMATCH,
              timestamps := { createdAt := 0, updatedAt := 0 } } ∧
    (validateLocator (fixEnv .local [])
      { locator := some "L1", dni := some "00000000X" } {} {}).2.localLookups = 1 := by
  exact ⟨rfl, rfl, rfl⟩

/-- Claim C6 (amended): an input whose normalized dni fails the DNI/NIE
validation short-circuits to an `INVALID / DNI_MISMATCH` outcome and the
adapter is never called (the source-call counter is unchanged) in either mode;
in ticketing mode no `locator_tickets` query runs either, but in local mode
exactly one stats query against `locator_tickets` is performed before the DNI
check, so the local candidate table is consulted once. -/
theorem claim_C6_short_circuit (env : Env) (raw : RawInput) (opts : CallOptions)
    (s : EngineState) (norm : NormInput)
    (hnorm : normalizeValidateLocatorInput raw = .ok norm)
    (hdni : isValidSpanishDniNie norm.dni = false)
    (hfresh : ∀ k, effectiveIdempotencyKey opts = some k →
      findIdempotentResponse s k = none) :
    (∃ resp, (validateLocator env raw opts s).1 = .ok resp ∧
       resp.result = .INVALID ∧ resp.reason = some .DNI_MISMATCH) ∧
    (validateLocator env raw opts s).2.sourceCalls = s.sourceCalls ∧
    (env.mode = .ticketing →
      (validateLocator env raw opts s).2.localLookups = s.localLookups) ∧
    (env.mode = .local →
      (validateLocator env raw opts s).2.localLookups = s.localLookups + 1) := by
  rw [validateLocator_fresh_run env raw opts s norm hnorm hfresh]
  cases hmode : env.mode with
  | ticketing =>
    have hrun : runCore env norm opts s = validateLocatorAgainstTicketing env s norm
        { userId := opts.userId, username := opts.username, roles := opts.roles } := by
      unfold runCore
      rw [hmode]
    rw [hrun, ticketing_invalid_dni env s norm _ hdni]
    cases hkey : effectiveIdempotencyKey opts with
    | none =>
      simp only []
      refine ⟨⟨_, rfl, rfl, rfl⟩, by simp, fun _ => by simp,
        fun hl => by simp at hl⟩
    | some key =>
      simp only []
      have hf1 : findIdempotentResponse (insertValidation s norm.locator
          (norm.serviceId.getD "") .INVALID (some "DNI_MISMATCH") none).2 key = none := by
        rw [findIdempotentResponse_congr s (insertValidation s norm.locator
          (norm.serviceId.getD "") .INVALID (some "DNI_MISMATCH") none).2 key (by simp)]
        exact hfresh key hkey
      rw [persistPhase_fresh _ key _ _ hf1]
      simp only []
      refine ⟨⟨_, rfl, rfl, rfl⟩, by simp, fun _ => by simp,
        fun hl => by simp at hl⟩
  | «local» =>
    have hrun : runCore env norm opts s = consumeNextTicketByLocator s norm opts.userId := by
      unfold runCore
      rw [hmode]
    rw [hrun, local_invalid_dni s norm opts.userId hdni]
    cases hkey : effectiveIdempotencyKey opts with
    | none =>
      simp only []
      refine ⟨⟨_, rfl, rfl, rfl⟩, by simp,
        fun ht => by simp at ht, fun _ => by simp⟩
    | some key =>
      simp only []
      have hf1 : findIdempotentResponse (insertValidation
          { s with localLookups := s.localLookups + 1 } norm.locator
          (norm.serviceId.getD "") .INVALID (some "DNI_MISMATCH") none).2 key = none := by
        rw [findIdempotentResponse_congr s (insertValidation
          { s with localLookups := s.localLookups + 1 } norm.locator
          (norm.serviceId.getD "") .INVALID (some "DNI_MISMATCH") none).2 key (by simp)]
        exact hfresh key hkey
      rw [persistPhase_fresh _ key _ _ hf1]
      simp only []
      refine ⟨⟨_, rfl, rfl, rfl⟩, by simp,
        fun ht => by simp at ht, fun _ => by simp⟩

/-- Concrete instance of the amended C6 theorem: the local-mode
`00000000X` call on the empty state. -/
theorem claim_C6_short_circuit_witness :
    (∃ resp, (validateLocator (fixEnv .local [])
        { locator := some "L1", dni := some "00000000X" } {} {}).1 = .ok resp ∧
       resp.result = .INVALID ∧ resp.reason = some .DNI_MISMATCH) ∧
    (validateLocator (fixEnv .local [])
      { locator := some "L1", dni := some "00000000X" } {} {}).2.sourceCalls
      = ({} : EngineState).sourceCalls ∧
    ((fixEnv .local []).mode = .ticketing →
      (validateLocator (fixEnv .local [])
        { locator := some "L1", dni := some "00000000X" } {} {}).2.localLookups
        = ({} : EngineState).localLookups) ∧
    ((fixEnv .local []).mode = .local →
      (validateLocator (fixEnv .local [])
        { locator := some "L1", dni := some "00000000X" } {} {}).2.localLookups
        = ({} : EngineState).localLookups + 1) :=
  claim_C6_short_circuit (fixEnv .local [])
    { locator := some "L1", dni := some "00000000X" } {} {}
    { locator := "L1", dni := "00000000X", serviceId := none }
    rfl (by decide) (fun k hk => Option.noConfusion hk)


/-- Restatement of `walkClaim_frame` against an equation naming the walk's
result components. -/
theorem walkClaim_frame_eq (cands : List TicketingLocatorCandidate) (s : EngineState)
    (consumed : List String) (input : NormInput) (actor : ConsumeInput → ConsumeInput)
    (x : Option TicketingLocatorCandidate) (y : List String) (s1 : EngineState)
    (heq : walkClaim s consumed cands input actor = (x, y, s1)) :
    s1.db.idempotency = s.db.idempotency ∧ s1.db.validations = s.db.validations ∧
    s1.db.locatorTickets = s.db.locatorTickets ∧ s1.sourceCalls = s.sourceCalls ∧
    s1.localLookups = s.localLookups := by
  have h := walkClaim_frame cands s consumed input actor
  rw [heq] at h
  exact h

/-- A conflicting atomic claim is a no-op on the state. -/
theorem tryConsume_false (s : EngineState) (i : ConsumeInput)
    (h : (tryConsumeTicketingCandidate s i).1 = false) :
    (tryConsumeTicketingCandidate s i).2 = s := by
  revert h
  unfold tryConsumeTicketingCandidate
  split
  · intro _
    rfl
  · intro h
    simp at h

/-- A walk that claims nothing leaves the state untouched. -/
theorem walkClaim_none_state (cands : List TicketingLocatorCandidate) (s : EngineState)
    (consumed : List String) (input : NormInput) (actor : ConsumeInput → ConsumeInput)
    (h : (walkClaim s consumed cands input actor).1 = none) :
    (walkClaim s consumed cands input actor).2.2 = s := by
  induction cands generalizing s consumed with
  | nil => rfl
  | cons c rest ih =>
    rw [walkClaim_cons] at h ⊢
    by_cases h1 : consumed.contains c.ticketKey
    · rw [if_pos h1] at h ⊢
      exact ih s consumed h
    · rw [if_neg h1] at h ⊢
      by_cases h2 : (tryConsumeTicketingCandidate s (actor
          { ticketKey := c.ticketKey, locator := input.locator,
            serviceId := input.serviceId, validatedDni := input.dni })).1 = true
      · rw [if_pos h2] at h
        simp at h
      · rw [if_neg h2] at h ⊢
        have hst := tryConsume_false s (actor
          { ticketKey := c.ticketKey, locator := input.locator,
            serviceId := input.serviceId, validatedDni := input.dni })
          (Bool.eq_false_iff.mpr h2)
        rw [hst] at h ⊢
        exact ih s (c.ticketKey :: consumed) h

/-- Ticketing mode never touches the idempotency table, the local ticket
table, or the local-lookup counter. -/
theorem ticketing_frame (env : Env) (s : EngineState) (input : NormInput) (a : Actor) :
    (validateLocatorAgainstTicketing env s input a).2.db.idempotency = s.db.idempotency ∧
    (validateLocatorAgainstTicketing env s input a).2.db.locatorTickets
      = s.db.locatorTickets ∧
    (validateLocatorAgainstTicketing env s input a).2.localLookups = s.localLookups := by
  simp only [validateLocatorAgainstTicketing]
  split
  · exact ⟨by simp, by simp, by simp⟩
  · split
    · exact ⟨rfl, rfl, rfl⟩
    · split
      · exact ⟨rfl, rfl, rfl⟩
      · split
        · exact ⟨by simp, by simp, by simp⟩
        · split
          · exact ⟨by simp, by simp, by simp⟩
          · split
            · rename_i heq
              obtain ⟨h1, h2, h3, h4, h5⟩ := walkClaim_frame_eq _ _ _ _ _ _ _ _ heq
              exact ⟨by simp [h1], by simp [h3], by simp [h5]⟩
            · rename_i heq
              obtain ⟨h1, h2, h3, h4, h5⟩ := walkClaim_frame_eq _ _ _ _ _ _ _ _ heq
              exact ⟨by simp [h1], by simp [h3], by simp [h5]⟩

/-- A ticketing-mode run that returns a non-`VALID` response makes no
consumption-ledger write and appends exactly one validation audit row. -/
theorem ticketing_nonvalid_writes (env : Env) (s : EngineState) (input : NormInput)
    (a : Actor) (r : ValidateLocatorResponse) (s' : EngineState)
    (h : validateLocatorAgainstTicketing env s input a = (.ok r, s'))
    (hres : r.result ≠ .VALID) :
    s'.db.consumptions = s.db.consumptions ∧
    ∃ row, s'.db.validations = s.db.validations ++ [row] := by
  simp only [validateLocatorAgainstTicketing] at h
  split at h
  · simp only [Prod.mk.injEq, Except.ok.injEq] at h
    obtain ⟨hr, hs⟩ := h
    subst hs
    exact ⟨by simp, _, rfl⟩
  · split at h
    · simp at h
    · split at h
      · simp at h
      · split at h
        · simp only [Prod.mk.injEq, Except.ok.injEq] at h
          obtain ⟨hr, hs⟩ := h
          subst hs
          exact ⟨by simp, _, rfl⟩
        · split at h
          · simp only [Prod.mk.injEq, Except.ok.injEq] at h
            obtain ⟨hr, hs⟩ := h
            subst hs
            exact ⟨by simp, _, rfl⟩
          · split at h
            · rename_i x y s1 heq
              have hnone := congrArg Prod.fst heq
              have hs1 := walkClaim_none_state _ _ _ _ _ hnone
              rw [heq] at hs1
              simp only [] at hs1
              subst hs1
              simp only [Prod.mk.injEq, Except.ok.injEq] at h
              obtain ⟨hr, hs⟩ := h
              subst hs
              exact ⟨by simp, _, rfl⟩
            · rename_i sel cf s1 heq
              simp only [Prod.mk.injEq, Except.ok.injEq] at h
              obtain ⟨hr, hs⟩ := h
              exact absurd (show r.result = .VALID by rw [← hr]; rfl) hres


/-- The persist phase only ever answers `ok` with the very response it was
asked to persist. -/
theorem persistPhase_ok (s : EngineState) (k h : String)
    (resp v : ValidateLocatorResponse) (s2 : EngineState)
    (hp : persistPhase s k h resp = (.ok v, s2)) : v = resp := by
  unfold persistPhase at hp
  cases hpi : persistIdempotentResponse s k h resp with
  | mk r s3 =>
    rw [hpi] at hp
    cases r with
    | ok u =>
      simp only [Prod.mk.injEq, Except.ok.injEq] at hp
      exact hp.1.symm
    | error e => simp at hp

/-- A core run (either mode) that answers a non-`VALID` response leaves the
consumption ledger, the local ticket table and the idempotency table unchanged
and appends exactly one validation audit row. -/
theorem runCore_nonvalid (env : Env) (norm : NormInput) (opts : CallOptions)
    (s : EngineState) (response : ValidateLocatorResponse) (s1 : EngineState)
    (hrun : runCore env norm opts s = (.ok response, s1))
    (hnv : response.result ≠ .VALID) :
    s1.db.consumptions = s.db.consumptions ∧
    s1.db.locatorTickets = s.db.locatorTickets ∧
    (∃ row, s1.db.validations = s.db.validations ++ [row]) ∧
    s1.db.idempotency = s.db.idempotency := by
  unfold runCore at hrun
  cases hmode : env.mode with
  | «local» =>
    rw [hmode] at hrun
    simp only [] at hrun
    obtain ⟨hf1, hf2, -⟩ := local_frame s norm opts.userId
    rw [hrun] at hf1 hf2
    obtain ⟨hl1, hl2⟩ := local_nonvalid_writes s norm opts.userId response s1 hrun hnv
    exact ⟨hf1, hl1, hl2, hf2⟩
  | ticketing =>
    rw [hmode] at hrun
    simp only [] at hrun
    obtain ⟨ht1, ht2, -⟩ := ticketing_frame env s norm
      { userId := opts.userId, username := opts.username, roles := opts.roles }
    rw [hrun] at ht1 ht2
    obtain ⟨hc1, hc2⟩ := ticketing_nonvalid_writes env s norm
      { userId := opts.userId, username := opts.username, roles := opts.roles }
      response s1 hrun hnv
    exact ⟨hc1, ht2, hc2, ht1⟩

/-- Claim C10 (amended): a `validateLocator` call that actually runs the core
algorithm (its idempotency key, if any, has no stored record) and completes
with `INVALID` or `DUPLICATE` leaves the consumption ledger and the local
ticket table unchanged, appends exactly one validation audit row, and touches
the idempotency table only to append the call's own record when a key is
present.  (The unamended claim also covered idempotent replays, which make no
writes at all — see the counterexample.) -/
theorem claim_C10_nonconsuming (env : Env) (raw : RawInput) (opts : CallOptions)
    (s : EngineState) (norm : NormInput) (resp : ValidateLocatorResponse)
    (s' : EngineState)
    (hnorm : normalizeValidateLocatorInput raw = .ok norm)
    (hfresh : ∀ k, effectiveIdempotencyKey opts = some k →
      findIdempotentResponse s k = none)
    (h : validateLocator env raw opts s = (.ok resp, s'))
    (hres : resp.result = .INVALID ∨ resp.result = .DUPLICATE) :
    s'.db.consumptions = s.db.consumptions ∧
    s'.db.locatorTickets = s.db.locatorTickets ∧
    (∃ row, s'.db.validations = s.db.validations ++ [row]) ∧
    (effectiveIdempotencyKey opts = none → s'.db.idempotency = s.db.idempotency) ∧
    (∀ k, effectiveIdempotencyKey opts = some k →
      ∃ irow, s'.db.idempotency = s.db.idempotency ++ [irow]) := by
  have hnv : resp.result ≠ .VALID := by
    rcases hres with h1 | h1 <;> rw [h1] <;> simp
  rw [validateLocator_fresh_run env raw opts s norm hnorm hfresh] at h
  cases hrun : runCore env norm opts s with
  | mk cr s1 =>
    rw [hrun] at h
    cases cr with
    | error e =>
      simp only [Prod.mk.injEq] at h
      exact Except.noConfusion h.1
    | ok response =>
      simp only [] at h
      cases hkey : effectiveIdempotencyKey opts with
      | none =>
        rw [hkey] at h
        simp only [Prod.mk.injEq, Except.ok.injEq] at h
        obtain ⟨hresp, hs⟩ := h
        subst hresp
        subst hs
        obtain ⟨hc1, hc2, hc3, hc4⟩ := runCore_nonvalid env norm opts s _ s1 hrun hnv
        exact ⟨hc1, hc2, hc3, fun _ => hc4, fun k hk => Option.noConfusion hk⟩
      | some key =>
        rw [hkey] at h
        simp only [] at h
        cases hper : persistPhase s1 key (buildRequestHash env norm) response with
        | mk pr s2 =>
          rw [hper] at h
          cases pr with
          | error e =>
            simp only [Prod.mk.injEq] at h
            exact Except.noConfusion h.1
          | ok v =>
            simp only [Prod.mk.injEq, Except.ok.injEq] at h
            obtain ⟨hv, hs2⟩ := h
            have hvr : v = response :=
              persistPhase_ok s1 key (buildRequestHash env norm) response v s2 hper
            have hrr : response = resp := hvr ▸ hv
            subst hrr
            subst hv
            obtain ⟨hc1, hc2, hc3, hc4⟩ := runCore_nonvalid env norm opts s v s1 hrun hnv
            have hf1 : findIdempotentResponse s1 key = none := by
              rw [findIdempotentResponse_congr s s1 key hc4]
              exact hfresh key hkey
            rw [persistPhase_fresh s1 key (buildRequestHash env norm) v hf1] at hper
            simp only [Prod.mk.injEq, Except.ok.injEq] at hper
            obtain ⟨-, hs2e⟩ := hper
            subst hs2
            rw [← hs2e]
            refine ⟨hc1, hc2, hc3, fun hn => Option.noConfusion hn,
              fun k hk => ⟨_, by rw [hc4]⟩⟩


/-- Claim C10 counterexample: a call that replays a stored `INVALID` response
through the idempotency gate completes with result `INVALID` yet makes no
writes at all — in particular it does not append the validation audit row the
claim promises every such call makes. -/
theorem claim_C10_counterexample :
    (validateLocator (fixEnv .ticketing []) { locator := some "L1", dni := some "12345678Z" }
        { idempotencyKey := some "k" } fixIdemState).1 = .ok fixStoredResp ∧
    fixStoredResp.result = .INVALID ∧
    (validateLocator (fixEnv .ticketing []) { locator := some "L1", dni := some "12345678Z" }
        { idempotencyKey := some "k" } fixIdemState).2 = fixIdemState ∧
    (validateLocator (fixEnv .ticketing []) { locator := some "L1", dni := some "12345678Z" }
        { idempotencyKey := some "k" } fixIdemState).2.db.validations.length = 0 := by
  exact ⟨rfl, rfl, rfl, rfl⟩

/-- Concrete instance of the amended C10 theorem: the keyless local-mode
`NOT_FOUND` call on the empty state appends one audit row and nothing else. -/
theorem claim_C10_nonconsuming_witness :
    (validateLocator (fixEnv .local []) { locator := some "L1", dni := some "12345678Z" }
        {} {}).2.db.consumptions = ({} : EngineState).db.consumptions ∧
    (validateLocator (fixEnv .local []) { locator := some "L1", dni := some "12345678Z" }
        {} {}).2.db.locatorTickets = ({} : EngineState).db.locatorTickets ∧
    (∃ row, (validateLocator (fixEnv .local []) { locator := some "L1", dni := some "12345678Z" }
        {} {}).2.db.validations = ({} : EngineState).db.validations ++ [row]) ∧
    (effectiveIdempotencyKey {} = none →
      (validateLocator (fixEnv .local []) { locator := some "L1", dni := some "12345678Z" }
        {} {}).2.db.idempotency = ({} : EngineState).db.idempotency) ∧
    (∀ k, effectiveIdempotencyKey {} = some k →
      ∃ irow, (validateLocator (fixEnv .local []) { locator := some "L1", dni := some "12345678Z" }
        {} {}).2.db.idempotency = ({} : EngineState).db.idempotency ++ [irow]) :=
  claim_C10_nonconsuming (fixEnv .local [])
    { locator := some "L1", dni := some "12345678Z" } {} {}
    { locator := "L1", dni := "12345678Z", serviceId := none }
    ((validateLocator (fixEnv .local [])
      { locator := some "L1", dni := some "12345678Z" } {} {}).1.toOption.getD fixStoredResp)
    ((validateLocator (fixEnv .local [])
      { locator := some "L1", dni := some "12345678Z" } {} {}).2)
    rfl (fun k hk => Option.noConfusion hk) rfl (by decide)


/-- `contains` agrees on lists with the same membership. -/
theorem contains_eq_of_mem_iff {l1 l2 : List String} {x : String}
    (h : x ∈ l1 ↔ x ∈ l2) : l1.contains x = l2.contains x := by
  by_cases hx : x ∈ l1
  · have h1 : l1.contains x = true := List.elem_eq_true_of_mem hx
    have h2 : l2.contains x = true := List.elem_eq_true_of_mem (h.mp hx)
    rw [h1, h2]
  · have h1 : l1.contains x = false := by
      rw [Bool.eq_false_iff]
      intro hcl
      exact hx (List.mem_of_elem_eq_true hcl)
    have h2 : l2.contains x = false := by
      rw [Bool.eq_false_iff]
      intro hcl
      exact hx (h.mpr (List.mem_of_elem_eq_true hcl))
    rw [h1, h2]

/-- `insertValidation` never touches the consumption ledger. -/
theorem consumptionKeys_insertValidation (s : EngineState) (loc svc : String)
    (res : VResult) (reason ref : Option String) :
    consumptionKeys (insertValidation s loc svc res reason ref).2 = consumptionKeys s := rfl

/-- Claim C4: three sequential calls against a locator holding exactly the two
unconsumed candidates of sequence 1 and 2 with matching identity yield
`VALID` (tk-1, remainingAfter 1), `VALID` (tk-2, remainingAfter 0), then
`DUPLICATE / NO_REMAINING` (remainingAfter 0); and in general a successful
ticketing claim reports `remainingAfter` equal to the number of eligible
candidates whose key is absent from the consumption ledger of the post-call
state, i.e. recomputed after the claim. -/
theorem claim_C4_sequential_exhaustion (env : Env) (s : EngineState) (input : NormInput)
    (a : Actor) (cands : List TicketingLocatorCandidate) (c : TicketingLocatorCandidate)
    (hdni : isValidSpanishDniNie input.dni = true)
    (hlist : env.hasListLocatorCandidates = true)
    (hc : env.listLocatorCandidates
      { locator := input.locator, dni := input.dni, serviceId := input.serviceId } = .ok cands)
    (hne : ¬(cands.length = 0))
    (hfind : (eligibleCandidatesOf cands input.dni).find?
      (fun d => !((consumptionKeys s).contains d.ticketKey)) = some c) :
    ((runCalls [c4call "k1", c4call "k2", c4call "k3"] {}).1.map respSummary
      = [.ok (.VALID, none, some 1, some "tk-1"),
         .ok (.VALID, none, some 0, some "tk-2"),
         .ok (.DUPLICATE, some .NO_REMAINING, some 0, none)]) ∧
    ∃ resp, (validateLocatorAgainstTicketing env s input a).1 = .ok resp ∧
      resp.result = .VALID ∧
      resp.ticket.map TicketInfo.ticketId = some c.ticketKey ∧
      resp.remainingAfter = some ((eligibleCandidatesOf cands input.dni).filter
        (fun d => !((consumptionKeys
          (validateLocatorAgainstTicketing env s input a).2).contains d.ticketKey))).length := by
  refine ⟨rfl, ?_⟩
  have helig : ¬((eligibleCandidatesOf cands input.dni).length = 0) := by
    intro h0
    rw [List.length_eq_zero] at h0
    rw [h0] at hfind
    exact Option.noConfusion hfind
  have hpred := @List.find?_some _
    (fun d => !((consumptionKeys s).contains d.ticketKey)) c
    (eligibleCandidatesOf cands input.dni) hfind
  have hnotmem : c.ticketKey ∉ consumptionKeys s := by
    intro hm
    simp only [] at hpred
    rw [show (consumptionKeys s).contains c.ticketKey = true from
      List.elem_eq_true_of_mem hm] at hpred
    simp at hpred
  rw [ticketing_run_eq env s input a cands hdni hlist hc hne]
  simp only []
  rw [if_neg helig, hfind]
  simp only []
  refine ⟨_, rfl, rfl, rfl, ?_⟩
  have hkeys1 : consumptionKeys
      (tryConsumeTicketingCandidate { s with sourceCalls := s.sourceCalls + 1 } (a.apply
        { ticketKey := c.ticketKey, locator := input.locator,
          serviceId := input.serviceId, validatedDni := input.dni })).2
      = consumptionKeys s ++ [c.ticketKey] := by
    rw [tryConsume_of_not_mem { s with sourceCalls := s.sourceCalls + 1 } (a.apply
      { ticketKey := c.ticketKey, locator := input.locator,
        serviceId := input.serviceId, validatedDni := input.dni }) hnotmem]
    unfold consumptionKeys consumptionRowOf
    rw [List.map_append]
    rfl
  rw [consumptionKeys_insertValidation, hkeys1]
  refine congrArg some (congrArg List.length (List.filter_congr ?_))
  intro d hd
  refine congrArg (fun b => !b) (contains_eq_of_mem_iff ?_)
  rw [List.mem_cons, mem_getConsumedTicketKeys, List.mem_append, List.mem_singleton]
  constructor
  · rintro (h1 | ⟨h2, -⟩)
    · exact Or.inr h1
    · exact Or.inl h2
  · rintro (h1 | h2)
    · exact Or.inr ⟨h1, List.mem_map_of_mem _ hd⟩
    · exact Or.inl h2


/-- Concrete instance of the C4 theorem: the scenario's first call claims
`tk-1` and reports the recomputed remaining count. -/
theorem claim_C4_sequential_exhaustion_witness :
    ((runCalls [c4call "k1", c4call "k2", c4call "k3"] {}).1.map respSummary
      = [.ok (.VALID, none, some 1, some "tk-1"),
         .ok (.VALID, none, some 0, some "tk-2"),
         .ok (.DUPLICATE, some .NO_REMAINING, some 0, none)]) ∧
    ∃ resp, (validateLocatorAgainstTicketing (fixEnv .ticketing [c4cand1, c4cand2]) {}
        { locator := "L1", dni := "12345678Z", serviceId := none } {}).1 = .ok resp ∧
      resp.result = .VALID ∧
      resp.ticket.map TicketInfo.ticketId = some c4cand1.ticketKey ∧
      resp.remainingAfter = some
        (((eligibleCandidatesOf [c4cand1, c4cand2] "12345678Z").filter
          (fun d => !((consumptionKeys
            (validateLocatorAgainstTicketing (fixEnv .ticketing [c4cand1, c4cand2]) {}
              { locator := "L1", dni := "12345678Z", serviceId := none } {}).2).contains
            d.ticketKey))).length) :=
  claim_C4_sequential_exhaustion (fixEnv .ticketing [c4cand1, c4cand2]) {}
    { locator := "L1", dni := "12345678Z", serviceId := none } {} [c4cand1, c4cand2] c4cand1
    (by decide) rfl rfl (by decide) (by decide)


/-- Two machine words with neither strictly below the other are equal. -/
theorem uint32_eq_of_not_lt {u v : UInt32} (h1 : ¬ u < v) (h2 : ¬ v < u) : u = v := by
  have h1n : ¬ u.toNat < v.toNat := h1
  have h2n : ¬ v.toNat < u.toNat := h2
  have h : u.toNat = v.toNat := by omega
  exact UInt32.toNat.inj h

/-- The lexicographic character-list order is total. -/
theorem listLexLE_total (a b : List Char) : listLexLE a b = true ∨ listLexLE b a = true := by
  induction a generalizing b with
  | nil => exact Or.inl rfl
  | cons x xs ih =>
    cases b with
    | nil => exact Or.inr rfl
    | cons y ys =>
      simp only [listLexLE]
      by_cases h1 : x.val < y.val
      · exact Or.inl (by rw [if_pos h1])
      · by_cases h2 : y.val < x.val
        · exact Or.inr (by rw [if_pos h2])
        · rw [if_neg h1, if_neg h2, if_neg h2, if_neg h1]
          exact ih ys

/-- The lexicographic character-list order is transitive. -/
theorem listLexLE_trans {a b c : List Char} (h1 : listLexLE a b = true)
    (h2 : listLexLE b c = true) : listLexLE a c = true := by
  induction a generalizing b c with
  | nil => rfl
  | cons x xs ih =>
    cases b with
    | nil => simp [listLexLE] at h1
    | cons y ys =>
      cases c with
      | nil => simp [listLexLE] at h2
      | cons z zs =>
        simp only [listLexLE] at h1 h2 ⊢
        by_cases hxy : x.val < y.val
        · by_cases hyz : y.val < z.val
          · have hxz : x.val < z.val := by
              have p1 : x.val.toNat < y.val.toNat := hxy
              have p2 : y.val.toNat < z.val.toNat := hyz
              show x.val.toNat < z.val.toNat
              omega
            rw [if_pos hxz]
          · by_cases hzy : z.val < y.val
            · rw [if_neg hyz, if_pos hzy] at h2
              exact Bool.noConfusion h2
            · have hyzeq : y.val = z.val := uint32_eq_of_not_lt hyz hzy
              have hxz : x.val < z.val := hyzeq ▸ hxy
              rw [if_pos hxz]
        · by_cases hyx : y.val < x.val
          · rw [if_neg hxy, if_pos hyx] at h1
            exact Bool.noConfusion h1
          · have hxyeq : x.val = y.val := uint32_eq_of_not_lt hxy hyx
            rw [if_neg hxy, if_neg hyx] at h1
            by_cases hyz : y.val < z.val
            · have hxz : x.val < z.val := hxyeq ▸ hyz
              rw [if_pos hxz]
            · by_cases hzy : z.val < y.val
              · rw [if_neg hyz, if_pos hzy] at h2
                exact Bool.noConfusion h2
              · have hyzeq : y.val = z.val := uint32_eq_of_not_lt hyz hzy
                rw [if_neg hyz, if_neg hzy] at h2
                have hxz1 : ¬ x.val < z.val := by
                  show ¬ x.val.toNat < z.val.toNat
                  rw [hxyeq, hyzeq]
                  omega
                have hxz2 : ¬ z.val < x.val := by
                  show ¬ z.val.toNat < x.val.toNat
                  rw [hxyeq, hyzeq]
                  omega
                rw [if_neg hxz1, if_neg hxz2]
                exact ih h1 h2

/-- String order totality. -/
theorem strLE_total (a b : String) : strLE a b = true ∨ strLE b a = true :=
  listLexLE_total a.data b.data

/-- String order transitivity. -/
theorem strLE_trans {a b c : String} (h1 : strLE a b = true) (h2 : strLE b c = true) :
    strLE a c = true := listLexLE_trans h1 h2

/-- The comparator step `if x != y then x <= y else rest`, characterized. -/
theorem chain_iff {α : Type} [LinearOrder α] {x y : α} {r : Bool} :
    (if x ≠ y then (decide (x ≤ y)) else r) = true ↔ (x < y ∨ (x = y ∧ r = true)) := by
  by_cases hxy : x = y
  · subst hxy
    rw [if_neg (by simp)]
    simp [lt_irrefl]
  · rw [if_pos hxy]
    constructor
    · intro h
      exact Or.inl (lt_of_le_of_ne (of_decide_eq_true h) hxy)
    · rintro (h | ⟨he, -⟩)
      · exact decide_eq_true (le_of_lt h)
      · exact absurd he hxy

/-- The ticketing comparator: sequence ascending with an absent sequence
standing in as `MAX_SAFE_INTEGER`, ties broken by `ticketKey`. -/
theorem candLE_iff (a b : TicketingLocatorCandidate) :
    candLEP a b ↔ (a.sequence.getD maxSafeInteger < b.sequence.getD maxSafeInteger ∨
      (a.sequence.getD maxSafeInteger = b.sequence.getD maxSafeInteger ∧
        strLE a.ticketKey b.ticketKey = true)) := by
  simp only [candLEP, candLE]
  exact chain_iff

/-- The local order: sequence rank (nulls last), then sequence, then
`created_at`, then `id`. -/
theorem localTicketLE_iff (a b : LocatorTicketRow) :
    localTicketLEP a b ↔
      (nullRank a < nullRank b ∨ (nullRank a = nullRank b ∧
        (a.sequence.getD 0 < b.sequence.getD 0 ∨ (a.sequence.getD 0 = b.sequence.getD 0 ∧
          (a.created_at < b.created_at ∨ (a.created_at = b.created_at ∧
            a.id ≤ b.id)))))) := by
  simp only [localTicketLEP, localTicketLE, nullRank]
  rw [chain_iff, chain_iff, chain_iff, decide_eq_true_eq]

theorem candLEP_total (a b : TicketingLocatorCandidate) : candLEP a b ∨ candLEP b a := by
  rw [candLE_iff, candLE_iff]
  rcases lt_trichotomy (a.sequence.getD maxSafeInteger) (b.sequence.getD maxSafeInteger)
    with h | h | h
  · exact Or.inl (Or.inl h)
  · rcases strLE_total a.ticketKey b.ticketKey with hs | hs
    · exact Or.inl (Or.inr ⟨h, hs⟩)
    · exact Or.inr (Or.inr ⟨h.symm, hs⟩)
  · exact Or.inr (Or.inl h)

theorem candLEP_trans (a b c : TicketingLocatorCandidate)
    (h1 : candLEP a b) (h2 : candLEP b c) : candLEP a c := by
  rw [candLE_iff] at h1 h2 ⊢
  rcases h1 with h1 | ⟨e1, s1⟩ <;> rcases h2 with h2 | ⟨e2, s2⟩
  · exact Or.inl (lt_trans h1 h2)
  · exact Or.inl (by rw [← e2]; exact h1)
  · exact Or.inl (by rw [e1]; exact h2)
  · exact Or.inr ⟨e1.trans e2, strLE_trans s1 s2⟩

theorem localTicketLEP_total (a b : LocatorTicketRow) :
    localTicketLEP a b ∨ localTicketLEP b a := by
  rw [localTicketLE_iff, localTicketLE_iff]
  omega

theorem localTicketLEP_trans (a b c : LocatorTicketRow)
    (h1 : localTicketLEP a b) (h2 : localTicketLEP b c) : localTicketLEP a c := by
  rw [localTicketLE_iff] at h1 h2 ⊢
  omega

instance : IsTotal TicketingLocatorCandidate candLEP := ⟨candLEP_total⟩

instance : IsTrans TicketingLocatorCandidate candLEP := ⟨candLEP_trans⟩

instance : IsTotal LocatorTicketRow localTicketLEP := ⟨localTicketLEP_total⟩

instance : IsTrans LocatorTicketRow localTicketLEP := ⟨localTicketLEP_trans⟩


/-- Claim C3 counterexample: a candidate with no sequence does not sort after
every sequenced candidate — paired with an explicit
`sequence = MAX_SAFE_INTEGER` candidate it ties and wins the `ticketKey`
tiebreak, and the engine then consumes the sequence-less candidate first. -/
theorem claim_C3_counterexample :
    msiA.sequence = none ∧ msiB.sequence.isSome = true ∧
    sortCandidates [msiB, msiA] = [msiA, msiB] ∧
    respSummary (validateLocatorAgainstTicketing (fixEnv .ticketing [msiB, msiA]) {}
      fixNorm {}).1 = .ok (.VALID, none, some 1, some "A") := by
  exact ⟨rfl, rfl, rfl, rfl⟩

/-- Claim C3 (amended): the consumption order is a deterministic total order —
the sorted candidate list is a sorted permutation of the input — given by
sequence ascending with an absent sequence standing in as
`Number.MAX_SAFE_INTEGER` (hence last except for ties with that exact value),
ties broken by `ticketKey` ascending; the walk claims the first eligible
candidate in that order that is not already in the consumption ledger.  In
local mode the order consulted is instead sequence ascending nulls last, then
`created_at`, then `id`, and the engine takes the head of the pending rows so
sorted. -/
theorem claim_C3_consumption_order (env : Env) (s : EngineState) (input : NormInput)
    (a : Actor) (cands : List TicketingLocatorCandidate) (c : TicketingLocatorCandidate)
    (hdni : isValidSpanishDniNie input.dni = true)
    (hlist : env.hasListLocatorCandidates = true)
    (hc : env.listLocatorCandidates
      { locator := input.locator, dni := input.dni, serviceId := input.serviceId } = .ok cands)
    (hne : ¬(cands.length = 0))
    (hfind : (eligibleCandidatesOf cands input.dni).find?
      (fun d => !((consumptionKeys s).contains d.ticketKey)) = some c) :
    (∀ l, List.Perm (sortCandidates l) l) ∧
    (∀ l, List.Sorted candLEP (sortCandidates l)) ∧
    (∀ x y, candLEP x y ↔ (x.sequence.getD maxSafeInteger < y.sequence.getD maxSafeInteger ∨
      (x.sequence.getD maxSafeInteger = y.sequence.getD maxSafeInteger ∧
        strLE x.ticketKey y.ticketKey = true))) ∧
    (∃ resp, (validateLocatorAgainstTicketing env s input a).1 = .ok resp ∧
      resp.result = .VALID ∧ resp.ticket.map TicketInfo.ticketId = some c.ticketKey) ∧
    (∀ s2 input2 b, (getNextPendingTicket s2 input2 b).1 =
      (List.insertionSort localTicketLEP (pendingTickets s2 input2 b)).head?.map
        (fun r => { id := r.id, sequence := r.sequence })) ∧
    (∀ s2 input2 b, List.Sorted localTicketLEP
      (List.insertionSort localTicketLEP (pendingTickets s2 input2 b))) ∧
    (∀ x y, localTicketLEP x y ↔
      (nullRank x < nullRank y ∨ (nullRank x = nullRank y ∧
        (x.sequence.getD 0 < y.sequence.getD 0 ∨ (x.sequence.getD 0 = y.sequence.getD 0 ∧
          (x.created_at < y.created_at ∨ (x.created_at = y.created_at ∧
            x.id ≤ y.id))))))) := by
  refine ⟨fun l => List.perm_insertionSort candLEP l,
    fun l => List.sorted_insertionSort candLEP l,
    candLE_iff, ?_, fun _ _ _ => rfl,
    fun s2 input2 b => List.sorted_insertionSort localTicketLEP _,
    localTicketLE_iff⟩
  have helig : ¬((eligibleCandidatesOf cands input.dni).length = 0) := by
    intro h0
    rw [List.length_eq_zero] at h0
    rw [h0] at hfind
    exact Option.noConfusion hfind
  rw [ticketing_run_eq env s input a cands hdni hlist hc hne]
  simp only []
  rw [if_neg helig, hfind]
  exact ⟨_, rfl, rfl, rfl⟩

/-- Concrete instance of the amended C3 theorem at the sort-boundary pair. -/
theorem claim_C3_consumption_order_witness :
    (∀ l, List.Perm (sortCandidates l) l) ∧
    (∀ l, List.Sorted candLEP (sortCandidates l)) ∧
    (∀ x y, candLEP x y ↔ (x.sequence.getD maxSafeInteger < y.sequence.getD maxSafeInteger ∨
      (x.sequence.getD maxSafeInteger = y.sequence.getD maxSafeInteger ∧
        strLE x.ticketKey y.ticketKey = true))) ∧
    (∃ resp, (validateLocatorAgainstTicketing (fixEnv .ticketing [msiB, msiA]) {}
        fixNorm {}).1 = .ok resp ∧
      resp.result = .VALID ∧ resp.ticket.map TicketInfo.ticketId = some msiA.ticketKey) ∧
    (∀ s2 input2 b, (getNextPendingTicket s2 input2 b).1 =
      (List.insertionSort localTicketLEP (pendingTickets s2 input2 b)).head?.map
        (fun r => { id := r.id, sequence := r.sequence })) ∧
    (∀ s2 input2 b, List.Sorted localTicketLEP
      (List.insertionSort localTicketLEP (pendingTickets s2 input2 b))) ∧
    (∀ x y, localTicketLEP x y ↔
      (nullRank x < nullRank y ∨ (nullRank x = nullRank y ∧
        (x.sequence.getD 0 < y.sequence.getD 0 ∨ (x.sequence.getD 0 = y.sequence.getD 0 ∧
          (x.created_at < y.created_at ∨ (x.created_at = y.created_at ∧
            x.id ≤ y.id))))))) :=
  claim_C3_consumption_order (fixEnv .ticketing [msiB, msiA]) {} fixNorm {}
    [msiB, msiA] msiA (by decide) rfl rfl (by decide) (by decide)


/-- Full decomposition of `validateLocator` once normalization succeeds:
idempotency lookup, core run, persist, rollback and outer error mapping. -/
theorem validateLocator_run_general (env : Env) (raw : RawInput) (opts : CallOptions)
    (s : EngineState) (norm : NormInput)
    (hnorm : normalizeValidateLocatorInput raw = .ok norm) :
    validateLocator env raw opts s =
      match (match effectiveIdempotencyKey opts with
             | some key => findIdempotentResponse s key
             | none => none) with
      | some existing =>
        if existing.request_hash ≠ buildRequestHash env norm then
          (.error (.badRequest "Idempotency-Key already used with different payload"), s)
        else (.ok existing.response_json, s)
      | none =>
        match runCore env norm opts s with
        | (.error e, s1) =>
          (.error (if e.isHttpException then e else .internalServer "ERROR"),
           { s1 with db := s.db })
        | (.ok response, s1) =>
          match effectiveIdempotencyKey opts with
          | none => (.ok response, s1)
          | some key =>
            match persistPhase s1 key (buildRequestHash env norm) response with
            | (.ok r, s2) => (.ok r, s2)
            | (.error e, s2) =>
              (.error (if e.isHttpException then e else .internalServer "ERROR"),
               { s2 with db := s.db }) := by
  simp only [validateLocator, hnorm, withTransaction, validateLocatorTxnBody]
  cases hkey : effectiveIdempotencyKey opts with
  | none =>
    simp only []
    cases hrun : runCore env norm opts s with
    | mk r s1 =>
      cases r with
      | ok response => rfl
      | error e =>
        simp only []
        split <;> rfl
  | some key =>
    simp only []
    cases hlook : findIdempotentResponse s key with
    | some existing =>
      simp only []
      by_cases hhash : existing.request_hash ≠ buildRequestHash env norm
      · rw [if_pos hhash]
        rfl
      · rw [if_neg hhash]
    | none =>
      simp only []
      cases hrun : runCore env norm opts s with
      | mk r s1 =>
        cases r with
        | ok response =>
          simp only []
          cases hper : persistPhase s1 key (buildRequestHash env norm) response with
          | mk pr s2 =>
            cases pr with
            | ok u => rfl
            | error e =>
              simp only []
              split <;> rfl
        | error e =>
          simp only []
          split <;> rfl

/-- `consumptionKeys` only reads the consumption ledger. -/
theorem consumptionKeys_congr {s2 s : EngineState}
    (h : s2.db.consumptions = s.db.consumptions) :
    consumptionKeys s2 = consumptionKeys s := by
  unfold consumptionKeys
  rw [h]

/-- Keys already in the ledger survive the claim walk. -/
theorem walkClaim_keys_mono (cands : List TicketingLocatorCandidate) (s : EngineState)
    (consumed : List String) (input : NormInput) (actor : ConsumeInput → ConsumeInput)
    (k : String) (h : k ∈ consumptionKeys s) :
    k ∈ consumptionKeys (walkClaim s consumed cands input actor).2.2 := by
  induction cands generalizing s consumed with
  | nil => exact h
  | cons c rest ih =>
    rw [walkClaim_cons]
    split_ifs with h1 h2
    · exact ih s consumed h
    · exact tryConsume_keys s _ k h
    · exact ih _ _ (tryConsume_keys s _ k h)

/-- The claim walk either leaves the ledger's key list unchanged or appends a
single key that was not present before. -/
theorem walkClaim_keys_cases (cands : List TicketingLocatorCandidate) (s : EngineState)
    (consumed : List String) (input : NormInput) (actor : ConsumeInput → ConsumeInput) :
    consumptionKeys (walkClaim s consumed cands input actor).2.2 = consumptionKeys s ∨
    ∃ ck, ck ∉ consumptionKeys s ∧
      consumptionKeys (walkClaim s consumed cands input actor).2.2
        = consumptionKeys s ++ [ck] := by
  induction cands generalizing s consumed with
  | nil => exact Or.inl rfl
  | cons c rest ih =>
    rw [walkClaim_cons]
    split_ifs with h1 h2
    · exact ih s consumed
    · by_cases hmem :
        (actor
          { ticketKey := c.ticketKey, locator := input.locator,
            serviceId := input.serviceId, validatedDni := input.dni }).ticketKey
          ∈ consumptionKeys s
      · rw [tryConsume_of_mem s _ hmem] at h2
        exact Bool.noConfusion h2
      · refine Or.inr ⟨_, hmem, ?_⟩
        rw [tryConsume_of_not_mem s _ hmem]
        unfold consumptionKeys consumptionRowOf
        rw [List.map_append]
        rfl
    · have hst : (tryConsumeTicketingCandidate s (actor
          { ticketKey := c.ticketKey, locator := input.locator,
            serviceId := input.serviceId, validatedDni := input.dni })).2 = s :=
        tryConsume_false s _ (Bool.eq_false_iff.mpr h2)
      rw [hst]
      exact ih s (c.ticketKey :: consumed)

/-- A successful walk claims a key that was fresh before the walk and is in
the ledger afterwards. -/
theorem walkClaim_some (cands : List TicketingLocatorCandidate) (s : EngineState)
    (consumed : List String) (input : NormInput) (actor : ConsumeInput → ConsumeInput)
    (c : TicketingLocatorCandidate) (cf : List String) (s1 : EngineState)
    (hact : ∀ i, (actor i).ticketKey = i.ticketKey)
    (heq : walkClaim s consumed cands input actor = (some c, cf, s1)) :
    c.ticketKey ∉ consumptionKeys s ∧ c.ticketKey ∈ consumptionKeys s1 := by
  induction cands generalizing s consumed with
  | nil => exact Option.noConfusion (congrArg Prod.fst heq)
  | cons d rest ih =>
    rw [walkClaim_cons] at heq
    split_ifs at heq with h1 h2
    · exact ih s consumed heq
    · have hmem :
          (actor
            { ticketKey := d.ticketKey, locator := input.locator,
              serviceId := input.serviceId, validatedDni := input.dni }).ticketKey
            ∉ consumptionKeys s := by
        intro hm
        rw [tryConsume_of_mem s _ hm] at h2
        exact Bool.noConfusion h2
      rw [hact] at hmem
      simp only [Prod.mk.injEq, Option.some.injEq] at heq
      obtain ⟨hdc, -, hs1⟩ := heq
      subst hdc
      constructor
      · exact hmem
      · rw [← hs1]
        rw [tryConsume_of_not_mem s _ (by rw [hact]; exact hmem)]
        unfold consumptionKeys consumptionRowOf
        rw [List.map_append]
        refine List.mem_append_right _ ?_
        rw [hact]
        exact List.mem_singleton.mpr rfl
    · have hst : (tryConsumeTicketingCandidate s (actor
          { ticketKey := d.ticketKey, locator := input.locator,
            serviceId := input.serviceId, validatedDni := input.dni })).2 = s :=
        tryConsume_false s _ (Bool.eq_false_iff.mpr h2)
      rw [hst] at heq
      exact ih s (d.ticketKey :: consumed) heq


/-- `walkClaim_keys_mono` phrased against a result equation. -/
theorem walkClaim_keys_mono_eq (cands : List TicketingLocatorCandidate) (s : EngineState)
    (consumed : List String) (input : NormInput) (actor : ConsumeInput → ConsumeInput)
    (x : Option TicketingLocatorCandidate) (y : List String) (s1 : EngineState) (k : String)
    (heq : walkClaim s consumed cands input actor = (x, y, s1))
    (h : k ∈ consumptionKeys s) : k ∈ consumptionKeys s1 := by
  have hm := walkClaim_keys_mono cands s consumed input actor k h
  rw [heq] at hm
  exact hm

/-- `walkClaim_keys_cases` phrased against a result equation. -/
theorem walkClaim_keys_cases_eq (cands : List TicketingLocatorCandidate) (s : EngineState)
    (consumed : List String) (input : NormInput) (actor : ConsumeInput → ConsumeInput)
    (x : Option TicketingLocatorCandidate) (y : List String) (s1 : EngineState)
    (heq : walkClaim s consumed cands input actor = (x, y, s1)) :
    consumptionKeys s1 = consumptionKeys s ∨
    ∃ ck, ck ∉ consumptionKeys s ∧ consumptionKeys s1 = consumptionKeys s ++ [ck] := by
  have hm := walkClaim_keys_cases cands s consumed input actor
  rw [heq] at hm
  exact hm

/-- Ledger keys survive a ticketing-mode run. -/
theorem ticketing_keys_mono (env : Env) (s : EngineState) (input : NormInput) (a : Actor)
    (k : String) (h : k ∈ consumptionKeys s) :
    k ∈ consumptionKeys (validateLocatorAgainstTicketing env s input a).2 := by
  simp only [validateLocatorAgainstTicketing]
  split
  · exact h
  · split
    · exact h
    · split
      · exact h
      · split
        · exact h
        · split
          · exact h
          · split
            · rename_i y s1 heq
              exact walkClaim_keys_mono_eq _ _ _ _ _ _ y s1 k heq h
            · rename_i sel cf s1 heq
              exact walkClaim_keys_mono_eq _ _ _ _ _ _ cf s1 k heq h

/-- A ticketing-mode run either leaves the ledger key list unchanged or
appends one previously absent key. -/
theorem ticketing_keys_cases (env : Env) (s : EngineState) (input : NormInput) (a : Actor) :
    consumptionKeys (validateLocatorAgainstTicketing env s input a).2 = consumptionKeys s ∨
    ∃ ck, ck ∉ consumptionKeys s ∧
      consumptionKeys (validateLocatorAgainstTicketing env s input a).2
        = consumptionKeys s ++ [ck] := by
  simp only [validateLocatorAgainstTicketing]
  split
  · exact Or.inl rfl
  · split
    · exact Or.inl rfl
    · split
      · exact Or.inl rfl
      · split
        · exact Or.inl rfl
        · split
          · exact Or.inl rfl
          · split
            · rename_i y s1 heq
              exact walkClaim_keys_cases_eq _ { s with sourceCalls := s.sourceCalls + 1 }
                _ _ _ _ y s1 heq
            · rename_i sel cf s1 heq
              exact walkClaim_keys_cases_eq _ { s with sourceCalls := s.sourceCalls + 1 }
                _ _ _ _ cf s1 heq

/-- A ticketing-mode `VALID` response names a ticket key that was absent from
the ledger before the call and present after it. -/
theorem ticketing_valid_ref (env : Env) (s : EngineState) (input : NormInput) (a : Actor)
    (r : ValidateLocatorResponse) (s' : EngineState)
    (h : validateLocatorAgainstTicketing env s input a = (.ok r, s'))
    (hres : r.result = .VALID) :
    ∃ ck, r.ticket.map TicketInfo.ticketId = some ck ∧
      ck ∉ consumptionKeys s ∧ ck ∈ consumptionKeys s' := by
  simp only [validateLocatorAgainstTicketing] at h
  split at h
  · simp only [Prod.mk.injEq, Except.ok.injEq] at h
    obtain ⟨hr, -⟩ := h
    rw [← hr] at hres
    exact absurd hres (by simp [buildFunctionalResponse])
  · split at h
    · simp at h
    · split at h
      · simp at h
      · split at h
        · simp only [Prod.mk.injEq, Except.ok.injEq] at h
          obtain ⟨hr, -⟩ := h
          rw [← hr] at hres
          exact absurd hres (by simp [buildFunctionalResponse])
        · split at h
          · simp only [Prod.mk.injEq, Except.ok.injEq] at h
            obtain ⟨hr, -⟩ := h
            rw [← hr] at hres
            exact absurd hres (by simp [buildFunctionalResponse])
          · split at h
            · rename_i x y s1 heq
              simp only [Prod.mk.injEq, Except.ok.injEq] at h
              obtain ⟨hr, -⟩ := h
              rw [← hr] at hres
              exact absurd hres (by simp [buildFunctionalResponse])
            · rename_i sel cf s1 heq
              obtain ⟨hnot, hin⟩ := walkClaim_some _ _ _ _ _ sel cf s1
                (actorApply_ticketKey a) heq
              simp only [Prod.mk.injEq, Except.ok.injEq] at h
              obtain ⟨hr, hs⟩ := h
              refine ⟨sel.ticketKey, ?_, hnot, ?_⟩
              · rw [← hr]
                rfl
              · rw [← hs]
                exact hin

/-- The idempotency insert either finds its `(key, endpoint)` row already
present and leaves the table alone, or appends exactly its own row. -/
theorem persistIdem_idempotency (s : EngineState) (k h : String)
    (resp : ValidateLocatorResponse) :
    ((persistIdempotentResponse s k h resp).2).db.idempotency = s.db.idempotency ∨
    ∃ row, row.idempotency_key = k ∧
      ((persistIdempotentResponse s k h resp).2).db.idempotency
        = s.db.idempotency ++ [row] := by
  unfold persistIdempotentResponse
  split
  · split
    · exact Or.inl rfl
    · split
      · exact Or.inl rfl
      · exact Or.inl rfl
  · exact Or.inr ⟨_, rfl, rfl⟩

/-- Same dichotomy for the full persist phase. -/
theorem persistPhase_idempotency (s : EngineState) (k h : String)
    (resp : ValidateLocatorResponse) :
    ((persistPhase s k h resp).2).db.idempotency = s.db.idempotency ∨
    ∃ row, row.idempotency_key = k ∧
      ((persistPhase s k h resp).2).db.idempotency = s.db.idempotency ++ [row] := by
  have hi := persistIdem_idempotency s k h resp
  unfold persistPhase
  cases hp : persistIdempotentResponse s k h resp with
  | mk pr s2 =>
    rw [hp] at hi
    cases pr with
    | ok u => exact hi
    | error e => exact hi

/-- Appending a row under a different key cannot make a missing key found. -/
theorem findIdempotentResponse_append (s s2 : EngineState) (kk : String)
    (row : IdempotencyRow) (hrow : row.idempotency_key ≠ kk)
    (heq : s2.db.idempotency = s.db.idempotency ++ [row])
    (hf : findIdempotentResponse s kk = none) :
    findIdempotentResponse s2 kk = none := by
  unfold findIdempotentResponse at hf ⊢
  rw [heq, List.find?_eq_none]
  rw [List.find?_eq_none] at hf
  intro x hx
  rcases List.mem_append.mp hx with hx1 | hx2
  · exact hf x hx1
  · rw [List.mem_singleton] at hx2
    subst hx2
    intro hpx
    rw [Bool.and_eq_true, beq_iff_eq, beq_iff_eq] at hpx
    exact hrow hpx.1

/-- Ledger keys survive the core run, in either mode. -/
theorem runCore_keys_mono (env : Env) (norm : NormInput) (opts : CallOptions)
    (s : EngineState) (k : String) (h : k ∈ consumptionKeys s) :
    k ∈ consumptionKeys (runCore env norm opts s).2 := by
  unfold runCore
  split
  · obtain ⟨hc, -, -⟩ := local_frame s norm opts.userId
    rw [consumptionKeys_congr hc]
    exact h
  · exact ticketing_keys_mono env s norm _ k h

/-- The core run either preserves the ledger key list or appends one fresh
key (only possible in ticketing mode). -/
theorem runCore_keys_cases (env : Env) (norm : NormInput) (opts : CallOptions)
    (s : EngineState) :
    consumptionKeys (runCore env norm opts s).2 = consumptionKeys s ∨
    ∃ ck, ck ∉ consumptionKeys s ∧
      consumptionKeys (runCore env norm opts s).2 = consumptionKeys s ++ [ck] := by
  unfold runCore
  split
  · obtain ⟨hc, -, -⟩ := local_frame s norm opts.userId
    exact Or.inl (consumptionKeys_congr hc)
  · exact ticketing_keys_cases env s norm _

/-- The core run never touches the idempotency table. -/
theorem runCore_idempotency (env : Env) (norm : NormInput) (opts : CallOptions)
    (s : EngineState) :
    ((runCore env norm opts s).2).db.idempotency = s.db.idempotency := by
  unfold runCore
  split
  · exact (local_frame s norm opts.userId).2.1
  · exact (ticketing_frame env s norm _).1


/-- Ledger keys survive a whole `validateLocator` call, whatever its outcome. -/
theorem validateLocator_keys_mono (env : Env) (raw : RawInput) (opts : CallOptions)
    (s : EngineState) (k : String) (h : k ∈ consumptionKeys s) :
    k ∈ consumptionKeys (validateLocator env raw opts s).2 := by
  cases hn : normalizeValidateLocatorInput raw with
  | error e =>
    unfold validateLocator
    rw [hn]
    exact h
  | ok norm =>
    rw [validateLocator_run_general env raw opts s norm hn]
    cases hlook : (match effectiveIdempotencyKey opts with
        | some key => findIdempotentResponse s key
        | none => none) with
    | some existing =>
      simp only []
      split
      · exact h
      · exact h
    | none =>
      simp only []
      cases hrun : runCore env norm opts s with
      | mk cr s1 =>
        have hm := runCore_keys_mono env norm opts s k h
        rw [hrun] at hm
        cases cr with
        | error e => exact h
        | ok response =>
          simp only []
          cases hkey : effectiveIdempotencyKey opts with
          | none => exact hm
          | some key =>
            simp only []
            cases hper : persistPhase s1 key (buildRequestHash env norm) response with
            | mk pr s2 =>
              have hpf := (persistPhase_frame s1 key (buildRequestHash env norm) response).2.2.1
              rw [hper] at hpf
              cases pr with
              | ok u =>
                rw [consumptionKeys_congr hpf]
                exact hm
              | error e => exact h

/-- A whole call either preserves the ledger key list or appends one fresh
key. -/
theorem validateLocator_keys_cases (env : Env) (raw : RawInput) (opts : CallOptions)
    (s : EngineState) :
    consumptionKeys (validateLocator env raw opts s).2 = consumptionKeys s ∨
    ∃ ck, ck ∉ consumptionKeys s ∧
      consumptionKeys (validateLocator env raw opts s).2 = consumptionKeys s ++ [ck] := by
  cases hn : normalizeValidateLocatorInput raw with
  | error e =>
    unfold validateLocator
    rw [hn]
    exact Or.inl rfl
  | ok norm =>
    rw [validateLocator_run_general env raw opts s norm hn]
    cases hlook : (match effectiveIdempotencyKey opts with
        | some key => findIdempotentResponse s key
        | none => none) with
    | some existing =>
      simp only []
      split
      · exact Or.inl rfl
      · exact Or.inl rfl
    | none =>
      simp only []
      cases hrun : runCore env norm opts s with
      | mk cr s1 =>
        have hm := runCore_keys_cases env norm opts s
        rw [hrun] at hm
        cases cr with
        | error e => exact Or.inl rfl
        | ok response =>
          simp only []
          cases hkey : effectiveIdempotencyKey opts with
          | none => exact hm
          | some key =>
            simp only []
            cases hper : persistPhase s1 key (buildRequestHash env norm) response with
            | mk pr s2 =>
              have hpf := (persistPhase_frame s1 key (buildRequestHash env norm) response).2.2.1
              rw [hper] at hpf
              cases pr with
              | ok u =>
                rw [consumptionKeys_congr hpf]
                exact hm
              | error e => exact Or.inl rfl

/-- A call whose own effective key differs from `kk` cannot create an
idempotency record under `kk`. -/
theorem validateLocator_find_preserve (env : Env) (raw : RawInput) (opts : CallOptions)
    (s : EngineState) (kk : String)
    (hne : ∀ k0, effectiveIdempotencyKey opts = some k0 → kk ≠ k0)
    (hf : findIdempotentResponse s kk = none) :
    findIdempotentResponse (validateLocator env raw opts s).2 kk = none := by
  cases hn : normalizeValidateLocatorInput raw with
  | error e =>
    unfold validateLocator
    rw [hn]
    exact hf
  | ok norm =>
    rw [validateLocator_run_general env raw opts s norm hn]
    cases hlook : (match effectiveIdempotencyKey opts with
        | some key => findIdempotentResponse s key
        | none => none) with
    | some existing =>
      simp only []
      split
      · exact hf
      · exact hf
    | none =>
      simp only []
      cases hrun : runCore env norm opts s with
      | mk cr s1 =>
        have hrc := runCore_idempotency env norm opts s
        rw [hrun] at hrc
        have hf1 : findIdempotentResponse s1 kk = none := by
          rw [findIdempotentResponse_congr s s1 kk hrc]
          exact hf
        cases cr with
        | error e => exact hf
        | ok response =>
          simp only []
          cases hkey : effectiveIdempotencyKey opts with
          | none => exact hf1
          | some key =>
            simp only []
            cases hper : persistPhase s1 key (buildRequestHash env norm) response with
            | mk pr s2 =>
              have hpi := persistPhase_idempotency s1 key (buildRequestHash env norm) response
              rw [hper] at hpi
              cases pr with
              | ok u =>
                rcases hpi with hpi | ⟨row, hrk, hpi⟩
                · rw [findIdempotentResponse_congr s1 s2 kk hpi]
                  exact hf1
                · refine findIdempotentResponse_append s1 s2 kk row ?_ hpi hf1
                  rw [hrk]
                  exact fun hx => hne key hkey hx.symm
              | error e => exact hf

/-- A fresh-key ticketing call whose outcome references ticket key `k` as
`VALID` claimed `k`: it was absent from the ledger before the call and present
after it. -/
theorem validateLocator_valid_ref (env : Env) (raw : RawInput) (opts : CallOptions)
    (s : EngineState) (r : Except VError ValidateLocatorResponse) (s1 : EngineState)
    (k : String)
    (hmode : env.mode = .ticketing)
    (hfresh : ∀ kk, effectiveIdempotencyKey opts = some kk →
      findIdempotentResponse s kk = none)
    (hcall : validateLocator env raw opts s = (r, s1))
    (href : referencesKey r k = true) :
    k ∉ consumptionKeys s ∧ k ∈ consumptionKeys s1 := by
  cases hn : normalizeValidateLocatorInput raw with
  | error e =>
    unfold validateLocator at hcall
    rw [hn] at hcall
    simp only [Prod.mk.injEq] at hcall
    rw [← hcall.1] at href
    simp [referencesKey] at href
  | ok norm =>
    rw [validateLocator_fresh_run env raw opts s norm hn hfresh] at hcall
    cases hrun : runCore env norm opts s with
    | mk cr sc =>
      rw [hrun] at hcall
      unfold runCore at hrun
      rw [hmode] at hrun
      simp only [] at hrun
      cases cr with
      | error e =>
        simp only [Prod.mk.injEq] at hcall
        rw [← hcall.1] at href
        simp [referencesKey] at href
      | ok response =>
        simp only [] at hcall
        have hval : response.result = .VALID → ∃ ck,
            response.ticket.map TicketInfo.ticketId = some ck ∧
            ck ∉ consumptionKeys s ∧ ck ∈ consumptionKeys sc := fun hres =>
          ticketing_valid_ref env s norm _ response sc hrun hres
        cases hkey : effectiveIdempotencyKey opts with
        | none =>
          rw [hkey] at hcall
          simp only [Prod.mk.injEq] at hcall
          obtain ⟨hr, hs⟩ := hcall
          rw [← hr] at href
          unfold referencesKey at href
          rw [Bool.and_eq_true, beq_iff_eq] at href
          obtain ⟨hres, htick⟩ := href
          obtain ⟨ck, hmap, hnot, hin⟩ := hval hres
          cases htk : response.ticket with
          | none =>
            rw [htk] at htick
            exact Bool.noConfusion htick
          | some t =>
            rw [htk] at htick hmap
            rw [beq_iff_eq] at htick
            have hck : t.ticketId = ck := Option.some.inj hmap
            subst hck
            subst htick
            exact ⟨hnot, by rw [← hs]; exact hin⟩
        | some key =>
          rw [hkey] at hcall
          simp only [] at hcall
          cases hper : persistPhase sc key (buildRequestHash env norm) response with
          | mk pr s2 =>
            rw [hper] at hcall
            cases pr with
            | error e =>
              simp only [Prod.mk.injEq] at hcall
              rw [← hcall.1] at href
              simp [referencesKey] at href
            | ok v =>
              simp only [Prod.mk.injEq] at hcall
              obtain ⟨hr, hs⟩ := hcall
              have hvr : v = response :=
                persistPhase_ok sc key (buildRequestHash env norm) response v s2 hper
              rw [← hr, hvr] at href
              unfold referencesKey at href
              rw [Bool.and_eq_true, beq_iff_eq] at href
              obtain ⟨hres, htick⟩ := href
              obtain ⟨ck, hmap, hnot, hin⟩ := hval hres
              have hpf := (persistPhase_frame sc key (buildRequestHash env norm) response).2.2.1
              rw [hper] at hpf
              cases htk : response.ticket with
              | none =>
                rw [htk] at htick
                exact Bool.noConfusion htick
              | some t =>
                rw [htk] at htick hmap
                rw [beq_iff_eq] at htick
                have hck : t.ticketId = ck := Option.some.inj hmap
                subst hck
                subst htick
                refine ⟨hnot, ?_⟩
                rw [← hs, consumptionKeys_congr hpf]
                exact hin


/-- Unfolding equation for `runCalls` on a cons cell. -/
theorem runCalls_cons (c : Call) (rest : List Call) (s : EngineState) :
    runCalls (c :: rest) s =
      ((validateLocator c.env c.input c.options s).1 ::
        (runCalls rest (validateLocator c.env c.input c.options s).2).1,
       (runCalls rest (validateLocator c.env c.input c.options s).2).2) := rfl

/-- Appending a fresh element preserves `Nodup`. -/
theorem nodup_append_singleton {l : List String} {ck : String}
    (h : l.Nodup) (hm : ck ∉ l) : (l ++ [ck]).Nodup := by
  rw [List.nodup_append]
  exact ⟨h, List.nodup_singleton ck,
    fun a ha hb => hm ((List.mem_singleton.mp hb) ▸ ha)⟩

/-- Hypothesis transport: after the head call runs, the tail calls' keys are
still unseen and still pairwise distinct. -/
theorem calls_transport (c : Call) (rest : List Call) (s : EngineState)
    (hfresh : ∀ cc ∈ c :: rest, ∀ kk, effectiveIdempotencyKey cc.options = some kk →
      findIdempotentResponse s kk = none)
    (hkeys : ((c :: rest).filterMap
      (fun cc => effectiveIdempotencyKey cc.options)).Nodup) :
    (∀ cc ∈ rest, ∀ kk, effectiveIdempotencyKey cc.options = some kk →
      findIdempotentResponse (validateLocator c.env c.input c.options s).2 kk = none) ∧
    (rest.filterMap (fun cc => effectiveIdempotencyKey cc.options)).Nodup := by
  rw [List.filterMap_cons] at hkeys
  cases hkc : effectiveIdempotencyKey c.options with
  | none =>
    rw [hkc] at hkeys
    refine ⟨fun cc hcc kk hkk => ?_, hkeys⟩
    refine validateLocator_find_preserve c.env c.input c.options s kk
      (fun k0 hk0 => by rw [hkc] at hk0; exact Option.noConfusion hk0)
      (hfresh cc (List.mem_cons_of_mem c hcc) kk hkk)
  | some k0 =>
    rw [hkc] at hkeys
    rw [List.nodup_cons] at hkeys
    obtain ⟨hk0notin, hrestnodup⟩ := hkeys
    refine ⟨fun cc hcc kk hkk => ?_, hrestnodup⟩
    refine validateLocator_find_preserve c.env c.input c.options s kk
      (fun k1 hk1 => ?_)
      (hfresh cc (List.mem_cons_of_mem c hcc) kk hkk)
    rw [hkc] at hk1
    have hk01 : k1 = k0 := (Option.some.inj hk1).symm
    subst hk01
    intro hkkeq
    subst hkkeq
    exact hk0notin (List.mem_filterMap.mpr ⟨cc, hcc, hkk⟩)

/-- Once a key sits in the ledger, no later fresh-key ticketing call can
answer `VALID` for it. -/
theorem runCalls_no_valid_of_mem (calls : List Call) (s : EngineState) (k : String)
    (hmode : ∀ c ∈ calls, c.env.mode = .ticketing)
    (hfresh : ∀ c ∈ calls, ∀ kk, effectiveIdempotencyKey c.options = some kk →
      findIdempotentResponse s kk = none)
    (hkeys : (calls.filterMap (fun c => effectiveIdempotencyKey c.options)).Nodup)
    (hmem : k ∈ consumptionKeys s) :
    (runCalls calls s).1.countP (fun r => referencesKey r k) = 0 := by
  induction calls generalizing s with
  | nil => rfl
  | cons c rest ih =>
    rw [runCalls_cons]
    simp only [List.countP_cons]
    have href : referencesKey (validateLocator c.env c.input c.options s).1 k = false := by
      rw [Bool.eq_false_iff]
      intro hr
      cases hcall : validateLocator c.env c.input c.options s with
      | mk r s1 =>
        rw [hcall] at hr
        obtain ⟨hnot, -⟩ := validateLocator_valid_ref c.env c.input c.options s r s1 k
          (hmode c (List.mem_cons_self c rest)) (hfresh c (List.mem_cons_self c rest))
          hcall hr
        exact hnot hmem
    rw [href]
    simp only [Bool.false_eq_true, if_false, Nat.add_zero]
    obtain ⟨hfresh1, hkeys1⟩ := calls_transport c rest s hfresh hkeys
    exact ih (validateLocator c.env c.input c.options s).2
      (fun cc hcc => hmode cc (List.mem_cons_of_mem c hcc)) hfresh1 hkeys1
      (validateLocator_keys_mono c.env c.input c.options s k hmem)

/-- Claim C1 (amended): over any serialized sequence of ticketing-mode
`validateLocator` calls whose idempotency keys are pairwise distinct and
previously unseen, at most one call returns a `VALID` outcome referencing a
given ticket key; the consumption ledger always keeps at most one record per
key (its key list stays duplicate-free), and a claim attempt on an
already-claimed key is a strict no-op on the state.  (Without the fresh-key
hypothesis an idempotent replay can repeat a stored `VALID` response — see the
counterexample.) -/
theorem claim_C1_at_most_once (calls : List Call) (s : EngineState) (k : String)
    (hmode : ∀ c ∈ calls, c.env.mode = .ticketing)
    (hfresh : ∀ c ∈ calls, ∀ kk, effectiveIdempotencyKey c.options = some kk →
      findIdempotentResponse s kk = none)
    (hkeys : (calls.filterMap (fun c => effectiveIdempotencyKey c.options)).Nodup)
    (hnodup : (consumptionKeys s).Nodup) :
    (runCalls calls s).1.countP (fun r => referencesKey r k) ≤ 1 ∧
    (consumptionKeys (runCalls calls s).2).Nodup ∧
    (∀ s2 i, i.ticketKey ∈ consumptionKeys s2 →
      tryConsumeTicketingCandidate s2 i = (false, s2)) := by
  refine ⟨?_, ?_, fun s2 i h => tryConsume_of_mem s2 i h⟩
  · induction calls generalizing s with
    | nil => exact Nat.zero_le 1
    | cons c rest ih =>
      rw [runCalls_cons]
      simp only [List.countP_cons]
      obtain ⟨hfresh1, hkeys1⟩ := calls_transport c rest s hfresh hkeys
      have hmode1 : ∀ cc ∈ rest, cc.env.mode = .ticketing :=
        fun cc hcc => hmode cc (List.mem_cons_of_mem c hcc)
      have hnodup1 : (consumptionKeys
          (validateLocator c.env c.input c.options s).2).Nodup := by
        rcases validateLocator_keys_cases c.env c.input c.options s with hcs | ⟨ck, hcknot, hcs⟩
        · rw [hcs]
          exact hnodup
        · rw [hcs]
          exact nodup_append_singleton hnodup hcknot
      by_cases hr : referencesKey (validateLocator c.env c.input c.options s).1 k = true
      · cases hcall : validateLocator c.env c.input c.options s with
        | mk r s1 =>
          rw [hcall] at hr
          obtain ⟨-, hin⟩ := validateLocator_valid_ref c.env c.input c.options s r s1 k
            (hmode c (List.mem_cons_self c rest)) (hfresh c (List.mem_cons_self c rest))
            hcall hr
          have hz := runCalls_no_valid_of_mem rest s1 k hmode1
            (by rw [hcall] at hfresh1; exact hfresh1)
            hkeys1 hin
          have hz2 : List.countP (fun r => referencesKey r k)
              (runCalls rest (r, s1).2).1 = 0 := hz
          simp only [hr, if_true]
          rw [hz2]
      · rw [Bool.eq_false_iff.mpr hr]
        simp only [Bool.false_eq_true, if_false, Nat.add_zero]
        exact ih (validateLocator c.env c.input c.options s).2 hmode1 hfresh1 hkeys1 hnodup1
  · induction calls generalizing s with
    | nil => exact hnodup
    | cons c rest ih =>
      rw [runCalls_cons]
      obtain ⟨hfresh1, hkeys1⟩ := calls_transport c rest s hfresh hkeys
      have hmode1 : ∀ cc ∈ rest, cc.env.mode = .ticketing :=
        fun cc hcc => hmode cc (List.mem_cons_of_mem c hcc)
      have hnodup1 : (consumptionKeys (validateLocator c.env c.input c.options s).2).Nodup := by
        rcases validateLocator_keys_cases c.env c.input c.options s with hcs | ⟨ck, hcknot, hcs⟩
        · rw [hcs]
          exact hnodup
        · rw [hcs]
          exact nodup_append_singleton hnodup hcknot
      exact ih (validateLocator c.env c.input c.options s).2 hmode1 hfresh1 hkeys1 hnodup1


/-- Claim C1 counterexample: two calls under the same idempotency key both
return a `VALID` outcome referencing ticket key `tk-1` — the second is an
idempotent replay of the stored response — even though the consumption ledger
holds a single record; so "at most one call returns a VALID outcome
referencing that key" fails over unrestricted call sequences. -/
theorem claim_C1_counterexample :
    (runCalls [c1call, c1call] {}).1.countP (fun r => referencesKey r "tk-1") = 2 ∧
    (runCalls [c1call, c1call] {}).2.db.consumptions.length = 1 := by
  exact ⟨rfl, rfl⟩

/-- Concrete instance of the amended C1 theorem: the three-call
distinct-key scenario claims `tk-1` at most once and keeps the ledger
duplicate-free. -/
theorem claim_C1_at_most_once_witness :
    (runCalls [c4call "k1", c4call "k2", c4call "k3"] {}).1.countP
      (fun r => referencesKey r "tk-1") ≤ 1 ∧
    (consumptionKeys (runCalls [c4call "k1", c4call "k2", c4call "k3"] {}).2).Nodup ∧
    (∀ s2 i, i.ticketKey ∈ consumptionKeys s2 →
      tryConsumeTicketingCandidate s2 i = (false, s2)) :=
  claim_C1_at_most_once [c4call "k1", c4call "k2", c4call "k3"] {} "tk-1"
    (by decide) (fun c hc kk hkk => rfl) (by decide) (by decide)

end Validador
